import Mathlib

/-!
Verification of the paf client transaction engine (src/paf/client.py).

The transaction state machine, connection engine and call adapters are
translated from src/paf/client.py.  The schema/codec module (paf.proto) and
the transport (paf.xcm) are external collaborators that are not part of the
source tree; the small parts of them the client uses (field put/pull,
non-blocking send/receive outcomes) are modelled from the spec, and each such
definition is marked `Modelled from the spec:` in its doc comment.

Messages are flat structured objects (JSON objects); we embed them as
association lists from field names to values.  Python dictionaries cannot
hold duplicate keys, so key deletion is embedded as filtering out the key.
Python exceptions are embedded with `Except`; where the source mutates an
object and may raise afterwards, the embedding returns the mutated object
alongside the `Except` result.
-/

/-- A JSON-ish value stored in a wire message field.  JSON null decodes to
Python None, embedded as `Value.null`. -/
inductive Value where
  | null
  | int (n : Int)
  | str (s : String)
deriving DecidableEq, Repr

/-- A decoded wire message: a flat mapping from field names to values,
embedded as an association list with (by construction) unique keys. -/
abbrev Msg : Type := List (String × Value)

/-- Modelled from the spec: the schema interaction patterns
(single-response or multi-response). -/
inductive InteractionType where
  | SINGLE_RESPONSE
  | MULTI_RESPONSE
deriving DecidableEq, Repr

/-- Modelled from the spec: a schema entry for one transaction command -
its command name, interaction pattern, and the ordered mandatory field list
plus named optional field list for each message kind.  Fields are identified
by their name; the python_name of a field is embedded as the name itself. -/
structure TaType where
  cmd : String
  ia_type : InteractionType
  request_fields : List String
  opt_request_fields : List String
  accept_fields : List String
  opt_accept_fields : List String
  notify_fields : List String
  opt_notify_fields : List String
  complete_fields : List String
  opt_complete_fields : List String
  fail_fields : List String
  opt_fail_fields : List String
deriving DecidableEq, Repr

/-- Modelled from the spec: name of the command field every message carries. -/
def FIELD_TA_CMD : String := "ta_cmd"

/-- Modelled from the spec: name of the transaction id field. -/
def FIELD_TA_ID : String := "ta_id"

/-- Modelled from the spec: name of the message-kind marker field. -/
def FIELD_MSG_TYPE : String := "msg_type"

/-- Modelled from the spec: name of the protocol version field of the
hello transaction's complete message. -/
def FIELD_PROTO_VERSION : String := "protocol_version"

/-- Modelled from the spec: name (and python_name) of the optional failure
reason field of fail messages. -/
def FIELD_FAIL_REASON : String := "fail_reason"

/-- Modelled from the spec: the message-kind marker values. -/
def MSG_TYPE_REQUEST : String := "request"

/-- Modelled from the spec: marker of an accept message. -/
def MSG_TYPE_ACCEPT : String := "accept"

/-- Modelled from the spec: marker of a notify message. -/
def MSG_TYPE_NOTIFY : String := "notify"

/-- Modelled from the spec: marker of a complete message. -/
def MSG_TYPE_COMPLETE : String := "complete"

/-- Modelled from the spec: marker of a fail message. -/
def MSG_TYPE_FAIL : String := "fail"

/-- Modelled from the spec: the protocol version the client requires
(proto.VERSION).  Its concrete numeric value is irrelevant to the claims. -/
def VERSION : Int := 2

/-- Modelled from the spec: the hello (handshake) schema entry: a
single-response command whose request carries the client id and the
minimum and preferred protocol versions, and whose complete message
carries the server-selected protocol version. -/
def TA_HELLO : TaType :=
  { cmd := "hello"
    ia_type := InteractionType.SINGLE_RESPONSE
    request_fields := ["client_id", "min_version", "max_version"]
    opt_request_fields := []
    accept_fields := []
    opt_accept_fields := []
    notify_fields := []
    opt_notify_fields := []
    complete_fields := [FIELD_PROTO_VERSION]
    opt_complete_fields := []
    fail_fields := []
    opt_fail_fields := [FIELD_FAIL_REASON] }

/-- Modelled from the spec: the subscribe schema entry, a multi-response
command with a mandatory subscription id and an optional filter in its
request; used as a concrete multi-response instance in tests. -/
def TA_SUBSCRIBE : TaType :=
  { cmd := "subscribe"
    ia_type := InteractionType.MULTI_RESPONSE
    request_fields := ["subscription_id"]
    opt_request_fields := ["filter"]
    accept_fields := []
    opt_accept_fields := []
    notify_fields := ["match_type", "service_id"]
    opt_notify_fields := ["generation"]
    complete_fields := []
    opt_complete_fields := []
    fail_fields := []
    opt_fail_fields := [FIELD_FAIL_REASON] }

/-- The structured payload of a ProtocolError: one constructor per raise
site in the source, carrying the data the source interpolates into the
error message. -/
inductive ProtoErrKind where
  | serverClosed
  | decodeError
  | unknownTransaction (taId : Value)
  | wrongCmd (taId : Int) (expected : String) (got : Value)
  | invalidMsgType (mt : Value) (cmd : String) (taId : Int) (st : String)
  | missingField (name : String)
  | unknownFields (names : List String)
  | establishmentFailed (reason : Value)
  | versionMismatch (selected : Value)
deriving DecidableEq, Repr

/-- The exception kinds the client can raise.  protocolError,
transportError and transactionError are the paf Error subclasses;
typeError, assertionError and indexError are Python builtin exceptions
(not caught by handlers that catch the paf Error base class). -/
inductive Error where
  | protocolError (k : ProtoErrKind)
  | transportError (reason : String)
  | transactionError (message : String)
  | typeError
  | assertionError
  | indexError
deriving DecidableEq, Repr

/-- Whether an exception is an instance of the paf Error base class
(what an `except Error` clause catches). -/
def Error.isPafError : Error → Bool
  | .protocolError _ => true
  | .transportError _ => true
  | .transactionError _ => true
  | .typeError => false
  | .assertionError => false
  | .indexError => false

/-- Keys of a message. -/
def msgKeys (m : Msg) : List String := m.map Prod.fst

/-- Value stored under a key, if present. -/
def lookupVal (k : String) (m : Msg) : Option Value :=
  (m.find? (fun p => p.1 == k)).map Prod.snd

/-- Deletion of a key from a message (Python `del msg[k]`; dictionary keys
are unique, so deletion is embedded as filtering the key out). -/
def msgErase (k : String) (m : Msg) : Msg :=
  m.filter (fun p => p.1 != k)

/-- Modelled from the spec: field put - serialize a value into a message
under the field name (Python dictionary assignment: replace if the key is
present, otherwise append). -/
def msgPut (k : String) (v : Value) (m : Msg) : Msg :=
  if m.any (fun p => p.1 == k) then
    m.map (fun p => if p.1 == k then (k, v) else p)
  else m ++ [(k, v)]

/-- Modelled from the spec: mandatory field pull - validate presence,
extract the value and consume (delete) the field; a missing mandatory
field is a protocol error. -/
def msgPull (k : String) (m : Msg) : Except Error (Value × Msg) :=
  match lookupVal k m with
  | some v => .ok (v, msgErase k m)
  | none => .error (.protocolError (.missingField k))

/-- Modelled from the spec: optional field pull - if the field is present
its value is extracted and consumed, with a JSON null (Python None) value
reported the same way as an absent field; an absent field is not an error. -/
def msgPullOpt (k : String) (m : Msg) : Option Value × Msg :=
  match lookupVal k m with
  | some v => (if v = Value.null then none else some v, msgErase k m)
  | none => (none, m)

/-- The event kinds a transaction emits to its handler
(client.py EventType). -/
inductive EventType where
  | ACCEPT
  | NOTIFY
  | COMPLETE
  | FAIL
deriving DecidableEq, Repr

/-- The transaction states (client.py TransactionState). -/
inductive TransactionState where
  | IDLE
  | REQUESTING
  | ACCEPTED
  | TERMINATED
deriving DecidableEq, Repr

/-- The `.name` of a transaction state as interpolated into error
messages. -/
def TransactionState.pyName : TransactionState → String
  | .IDLE => "IDLE"
  | .REQUESTING => "REQUESTING"
  | .ACCEPTED => "ACCEPTED"
  | .TERMINATED => "TERMINATED"

/-- The response handler a transaction holds, defunctionalized: either the
connection's own initial_hello_cb, or an external (caller-supplied)
callback, whose invocations the embedding logs on the connection. -/
inductive CbTag where
  | initialHello
  | external
deriving DecidableEq, Repr

/-- One outstanding exchange (client.py Transaction).  The handler is
installed by produce_request; in the embedding it is carried from
construction. -/
structure Transaction where
  ta_id : Int
  ta_type : TaType
  state : TransactionState
  cb : CbTag
deriving DecidableEq, Repr

/-- client.py lines 93-125: the if/elif chain of consume_message that
determines, from (message kind, current state, interaction pattern), the
event to emit, the field lists of that message kind, and the next state;
`none` is the final else branch (an illegal combination). -/
def consumeDispatch (tt : TaType) (st : TransactionState) (mt : Value) :
    Option (EventType × List String × List String × TransactionState) :=
  if mt = Value.str MSG_TYPE_ACCEPT ∧ st = TransactionState.REQUESTING ∧
     tt.ia_type = InteractionType.MULTI_RESPONSE then
    some (.ACCEPT, tt.accept_fields, tt.opt_accept_fields, .ACCEPTED)
  else if mt = Value.str MSG_TYPE_NOTIFY ∧ st = TransactionState.ACCEPTED then
    some (.NOTIFY, tt.notify_fields, tt.opt_notify_fields, st)
  else if mt = Value.str MSG_TYPE_COMPLETE ∧
          ((st = TransactionState.REQUESTING ∧
            tt.ia_type = InteractionType.SINGLE_RESPONSE) ∨
           (st = TransactionState.ACCEPTED ∧
            tt.ia_type = InteractionType.MULTI_RESPONSE)) then
    some (.COMPLETE, tt.complete_fields, tt.opt_complete_fields, .TERMINATED)
  else if mt = Value.str MSG_TYPE_FAIL then
    some (.FAIL, tt.fail_fields, tt.opt_fail_fields, .TERMINATED)
  else
    none

/-- client.py line 126: `[field.pull(in_msg) for field in fields]` -
positional extraction of the mandatory fields, in schema order; the first
missing field raises. -/
def pullMany : List String → Msg → Except Error (List Value × Msg)
  | [], m => .ok ([], m)
  | f :: fs, m =>
    match msgPull f m with
    | .error e => .error e
    | .ok (v, m') =>
      match pullMany fs m' with
      | .error e => .error e
      | .ok (vs, m'') => .ok (v :: vs, m'')

/-- client.py lines 128-132: extraction of the optional fields by name, in
schema order; a field whose pulled value is absent-or-null is skipped, the
rest are collected (keyed by the field python_name). -/
def pullOpts : List String → Msg → List (String × Value) × Msg
  | [], m => ([], m)
  | o :: os, m =>
    let r := msgPullOpt o m
    let rest := pullOpts os r.2
    match r.1 with
    | some v => ((o, v) :: rest.1, rest.2)
    | none => rest

/-- client.py lines 84-137, Transaction.consume_message.  Returns the
transaction as mutated (the source assigns self.state before pulling
fields, so a failed pull still leaves the new state behind) together with
either the raised error or the handler invocation
(event, positional args, named optional args) the source performs on
line 137; the caller dispatches it. -/
def consume_message (t : Transaction) (in_msg : Msg) :
    Transaction × Except Error (EventType × List Value × List (String × Value)) :=
  match msgPull FIELD_TA_CMD in_msg with
  | .error e => (t, .error e)
  | .ok (ta_cmd, in_msg) =>
    if ta_cmd ≠ Value.str t.ta_type.cmd then
      (t, .error (.protocolError (.wrongCmd t.ta_id t.ta_type.cmd ta_cmd)))
    else
      match msgPull FIELD_MSG_TYPE in_msg with
      | .error e => (t, .error e)
      | .ok (msg_type, in_msg) =>
        match consumeDispatch t.ta_type t.state msg_type with
        | none =>
          (t, .error (.protocolError
            (.invalidMsgType msg_type t.ta_type.cmd t.ta_id t.state.pyName)))
        | some (event, fields, opt_fields, st') =>
          let t := { t with state := st' }
          match pullMany fields in_msg with
          | .error e => (t, .error e)
          | .ok (args, in_msg) =>
            let pr := pullOpts opt_fields in_msg
            if pr.2.length > 0 then
              (t, .error (.protocolError (.unknownFields (msgKeys pr.2))))
            else
              (t, .ok (event, args, pr.1))

/-- client.py lines 71-76: the optional-argument loop of produce_request:
for each schema optional field present (by name) in the argument mapping,
serialize its value when it is not None, and remove the entry from the
mapping.  Returns the extended message and the drained mapping. -/
def applyOptArgs : List String → Msg → List (String × Value) →
    Msg × List (String × Value)
  | [], msg, optargs => (msg, optargs)
  | o :: os, msg, optargs =>
    if optargs.any (fun p => p.1 == o) then
      let field_value := lookupVal o optargs
      let msg :=
        match field_value with
        | some v => if v = Value.null then msg else msgPut o v msg
        | none => msg
      applyOptArgs os msg (msgErase o optargs)
    else
      applyOptArgs os msg optargs

/-- client.py lines 57-82, Transaction.produce_request.  Stamps the
command, transaction id and request marker, serializes the mandatory
arguments positionally and the optional arguments by name, and moves the
transaction to REQUESTING.  The two `assert` statements are embedded as
assertionError results. -/
def produce_request (t : Transaction) (request_args : List Value)
    (request_optargs : List (String × Value)) :
    Except Error (Transaction × Msg) :=
  let request_msg : Msg := []
  let request_msg := msgPut FIELD_TA_CMD (Value.str t.ta_type.cmd) request_msg
  let request_msg := msgPut FIELD_TA_ID (Value.int t.ta_id) request_msg
  let request_msg := msgPut FIELD_MSG_TYPE (Value.str MSG_TYPE_REQUEST) request_msg
  if request_args.length ≠ t.ta_type.request_fields.length then
    .error .assertionError
  else
    let request_msg :=
      (t.ta_type.request_fields.zip request_args).foldl
        (fun m fv => msgPut fv.1 fv.2 m) request_msg
    let ar := applyOptArgs t.ta_type.opt_request_fields request_msg request_optargs
    if ar.2.length ≠ 0 then
      .error .assertionError
    else
      .ok ({ t with state := TransactionState.REQUESTING }, ar.1)

/-- The percent character. -/
def percentChar : Char := Char.ofNat 37

/-- The lowercase letter s. -/
def letterS : Char := Char.ofNat 115

/-- Splits a format string at each occurrence of the two-character
conversion specifier percent-s; n+1 groups means n specifiers. -/
def splitSpec : List Char → List (List Char)
  | [] => [[]]
  | [c] => [[c]]
  | c1 :: c2 :: rest =>
    if c1 = percentChar ∧ c2 = letterS then
      [] :: splitSpec rest
    else
      match splitSpec (c2 :: rest) with
      | [] => [[c1]]
      | g :: gs => (c1 :: g) :: gs

/-- Python percent-formatting of a format string with a single (non-tuple)
argument: exactly one percent-s specifier substitutes the argument rendered
as a string; any other specifier count raises TypeError (in particular, a
format string with no specifier and an argument raises
`not all arguments converted during string formatting`). -/
def pyFormat (fmt : String) (arg : String) : Except Error String :=
  let parts := splitSpec fmt.toList
  if parts.length = 2 then
    .ok (String.intercalate arg (parts.map (fun l => String.mk l)))
  else
    .error Error.typeError

/-- Python str() of the optional reason value. -/
def pyStr : Option Value → String
  | none => "None"
  | some Value.null => "None"
  | some (Value.int n) => toString n
  | some (Value.str s) => s

/-- The format string of TransactionError for a present reason
(client.py line 30; the source wraps the reason in single quote
characters, omitted here). -/
def taFailedFmt : String := "Protocol transaction failed: %s."

/-- The format string of TransactionError for an absent reason
(client.py line 32); note the source then still applies the percent
operator to it with the None reason. -/
def taFailedUnknownFmt : String := "Protocol transaction failed for unknown reason."

/-- client.py lines 27-34, TransactionError.__init__: builds the error
message by percent-formatting; with reason=None the source applies
`% reason` to a format string that has no conversion specifier, so the
constructor itself raises TypeError instead of producing a
TransactionError. -/
def TransactionError_init (reason : Option Value) : Except Error Error :=
  match reason with
  | some r =>
    match pyFormat taFailedFmt (pyStr (some r)) with
    | .ok message => .ok (Error.transactionError message)
    | .error e => .error e
  | none =>
    match pyFormat taFailedUnknownFmt (pyStr none) with
    | .ok message => .ok (Error.transactionError message)
    | .error e => .error e

/-- The state of a blocking call adapter (client.py Call): the transaction
id it was bound to, the last terminal-relevant event recorded by its
__call__, and the failure reason remembered on FAIL. -/
structure CallState where
  ta_id : Option Int
  result : Option EventType
  reason : Option Value
deriving DecidableEq, Repr

/-- client.py lines 154-159, Call.__call__: assert the bound transaction id
matches, record the event as the result, and on FAIL remember the optional
failure reason from the named optional arguments. -/
def CallState.handle (s : CallState) (ta_id : Int) (event : EventType)
    (optargs : List (String × Value)) : Except Error CallState :=
  match s.ta_id with
  | none => .error .assertionError
  | some i =>
    if i ≠ ta_id then .error .assertionError
    else
      let s := { s with result := some event }
      if event = EventType.FAIL then
        .ok { s with reason := lookupVal FIELD_FAIL_REASON optargs }
      else
        .ok s

/-- client.py lines 161-165, Call.get, after its wait(conn, ...) has
returned, i.e. once the recorded result is COMPLETE or FAIL: on FAIL raise
the constructed TransactionError (or whatever constructing it raises), on
COMPLETE return None. -/
def CallState.get (s : CallState) : Except Error Unit :=
  if s.result = some EventType.FAIL then
    match TransactionError_init s.reason with
    | .ok err => .error err
    | .error e => .error e
  else
    .ok ()

/-- The bound on messages sent and on messages received per process round
(client.py line 20). -/
def MAX_MSGS_PER_ROUND : Nat := 128

/-- A wire message as handed to / received from the transport: empty bytes
(peer closed), bytes that fail to decode, or bytes decoding to a structured
message.  The JSON encode/decode round trip itself is out of scope. -/
inductive WireMsg where
  | empty
  | garbage
  | data (m : Msg)
deriving DecidableEq, Repr

/-- Modelled from the spec: the outcome of one non-blocking transport
receive call - a wire message, a would-block condition, or a transport
failure. -/
inductive RecvOutcome where
  | wire (w : WireMsg)
  | eagain
  | fail (reason : String)
deriving DecidableEq, Repr

/-- Modelled from the spec: the outcome of one non-blocking transport send
call - success, would-block, or a transport failure. -/
inductive SendOutcome where
  | ok
  | eagain
  | fail (reason : String)
deriving DecidableEq, Repr

/-- The readiness conditions the client registers interest in on the
transport (xcm SO_RECEIVABLE / SO_SENDABLE). -/
structure Cond where
  receivable : Bool
  sendable : Bool
deriving DecidableEq, Repr

/-- Modelled from the spec: the non-blocking transport handle.  Its
behavior is scripted: each receive call consumes the next receive outcome
(an exhausted script means would-block), each send call consumes the next
send outcome; successfully sent messages are logged in order. -/
structure Sock where
  recvQueue : List RecvOutcome
  sendOutcomes : List SendOutcome
  sent : List WireMsg
  cond : Cond
  closed : Bool
deriving DecidableEq, Repr

/-- The connection engine state (client.py Client).  delivered logs the
invocations of external response callbacks; ready_fired logs the firing of
the ready callback. -/
structure Client where
  client_id : Int
  sock : Sock
  ta_id : Int
  out_wire_msgs : List WireMsg
  transactions : List (Int × Transaction)
  proto_version : Option Value
  has_ready_cb : Bool
  ready_fired : Bool
  delivered : List (Int × EventType × List Value × List (String × Value))
deriving DecidableEq, Repr

/-- client.py lines 349-353, Client.update: recompute the transport
readiness interest - always receivable, and sendable exactly when the
outgoing queue is non-empty. -/
def update (c : Client) : Client :=
  { c with sock := { c.sock with cond :=
      { receivable := true,
        sendable := decide (c.out_wire_msgs.length > 0) } } }

/-- client.py lines 256-257, Client.close. -/
def Client.close (c : Client) : Client :=
  { c with sock := { c.sock with closed := true } }

/-- client.py lines 309-312, Client.next_ta_id: return the counter and
increment it. -/
def next_ta_id (c : Client) : Int × Client :=
  (c.ta_id, { c with ta_id := c.ta_id + 1 })

/-- client.py lines 363-378, Client.try_send: pop the head of the outgoing
queue and attempt a non-blocking send; on would-block push it back at the
front and report no progress; on any other transport failure raise a
TransportError (the message stays popped); always recompute readiness
interest last (the finally clause). -/
def try_send (c : Client) : Client × Except Error Bool :=
  match c.out_wire_msgs with
  | [] => (update c, .ok false)
  | out_wire_msg :: rest =>
    match c.sock.sendOutcomes with
    | [] =>
      (update c, .ok false)
    | o :: outs =>
      let c := { c with sock := { c.sock with sendOutcomes := outs } }
      match o with
      | SendOutcome.ok =>
        (update { c with out_wire_msgs := rest,
                         sock := { c.sock with sent := c.sock.sent ++ [out_wire_msg] } },
         .ok true)
      | SendOutcome.eagain =>
        (update { c with out_wire_msgs := out_wire_msg :: rest }, .ok false)
      | SendOutcome.fail reason =>
        (update { c with out_wire_msgs := rest }, .error (.transportError reason))

/-- Looks a pulled transaction id value up in the registry (the
`ta_id not in self.transactions` membership test plus the subsequent
indexing): only an integer value can match a registry key. -/
def findTransaction (v : Value) (ts : List (Int × Transaction)) : Option (Int × Transaction) :=
  match v with
  | Value.int i => ts.find? (fun p => p.1 == i)
  | _ => none

/-- Replaces the registry entry of a transaction id (the source mutates
the Transaction object in place; the registry holds that object). -/
def replaceTransaction (i : Int) (t : Transaction) (ts : List (Int × Transaction)) :
    List (Int × Transaction) :=
  ts.map (fun p => if p.1 == i then (i, t) else p)

/-- Deletes a transaction id from the registry
(`del self.transactions[ta_id]`). -/
def deleteTransaction (i : Int) (ts : List (Int × Transaction)) :
    List (Int × Transaction) :=
  ts.filter (fun p => p.1 != i)

/-- client.py lines 239-254, Client.initial_hello_cb: on FAIL raise a
protocol-establishment ProtocolError carrying the optional failure reason
(or a default); on COMPLETE check the server-selected version against the
required version - a mismatch raises a ProtocolError, a match records the
negotiated version and fires the ready callback when one was supplied. -/
def initial_hello_cb (c : Client) (event : EventType) (args : List Value)
    (optargs : List (String × Value)) : Client × Except Error Unit :=
  if event = EventType.FAIL then
    let reason :=
      match lookupVal FIELD_FAIL_REASON optargs with
      | some r => r
      | none => Value.str "reason unknown"
    (c, .error (.protocolError (.establishmentFailed reason)))
  else if event = EventType.COMPLETE then
    match args with
    | [] => (c, .error .indexError)
    | selected_version :: _ =>
      if Value.int VERSION ≠ selected_version then
        (c, .error (.protocolError (.versionMismatch selected_version)))
      else
        let c := { c with proto_version := some selected_version }
        if c.has_ready_cb then ({ c with ready_fired := true }, .ok ())
        else (c, .ok ())
  else
    (c, .ok ())

/-- Dispatch of a transaction handler invocation (client.py line 137,
defunctionalized): the connection's own initial_hello_cb runs against the
client state and may raise; an external caller callback is logged. -/
def runCb (cb : CbTag) (c : Client) (ta_id : Int) (event : EventType)
    (args : List Value) (optargs : List (String × Value)) :
    Client × Except Error Unit :=
  match cb with
  | CbTag.external =>
    ({ c with delivered := c.delivered ++ [(ta_id, event, args, optargs)] }, .ok ())
  | CbTag.initialHello => initial_hello_cb c event args optargs

/-- client.py lines 380-403, Client.try_receive: attempt one non-blocking
receive; empty bytes are a peer-close protocol error, undecodable bytes a
decode protocol error; otherwise pull the transaction id, look the
transaction up (unknown id is a protocol error), hand the message to
consume_message (whose handler invocation runs before returning), and
delete the transaction from the registry once TERMINATED; would-block
reports no progress; readiness interest is always recomputed last (the
finally clause). -/
def try_receive (c : Client) : Client × Except Error Bool :=
  match c.sock.recvQueue with
  | [] => (update c, .ok false)
  | o :: rest =>
    let c := { c with sock := { c.sock with recvQueue := rest } }
    match o with
    | RecvOutcome.eagain => (update c, .ok false)
    | RecvOutcome.fail reason => (update c, .error (.transportError reason))
    | RecvOutcome.wire WireMsg.empty =>
      (update c, .error (.protocolError .serverClosed))
    | RecvOutcome.wire WireMsg.garbage =>
      (update c, .error (.protocolError .decodeError))
    | RecvOutcome.wire (WireMsg.data in_msg) =>
      match msgPull FIELD_TA_ID in_msg with
      | .error e => (update c, .error e)
      | .ok (ta_id_val, in_msg) =>
        match findTransaction ta_id_val c.transactions with
        | none =>
          (update c, .error (.protocolError (.unknownTransaction ta_id_val)))
        | some (i, transaction) =>
          let pr := consume_message transaction in_msg
          let t' := pr.1
          let c := { c with transactions := replaceTransaction i t' c.transactions }
          match pr.2 with
          | .error e => (update c, .error e)
          | .ok (event, args, optargs) =>
            let rc := runCb t'.cb c i event args optargs
            match rc.2 with
            | .error e => (update rc.1, .error e)
            | .ok _ =>
              let c :=
                if t'.state = TransactionState.TERMINATED then
                  { rc.1 with transactions := deleteTransaction i rc.1.transactions }
                else rc.1
              (update c, .ok true)

/-- client.py lines 356-358: the bounded send half of process - up to n
successful non-blocking sends, stopping early when try_send reports no
progress. -/
def sendLoop : Nat → Client → Client × Except Error Unit
  | 0, c => (c, .ok ())
  | n + 1, c =>
    match try_send c with
    | (c, .ok true) => sendLoop n c
    | (c, .ok false) => (c, .ok ())
    | (c, .error e) => (c, .error e)

/-- client.py lines 359-361: the bounded receive half of process. -/
def recvLoop : Nat → Client → Client × Except Error Unit
  | 0, c => (c, .ok ())
  | n + 1, c =>
    match try_receive c with
    | (c, .ok true) => recvLoop n c
    | (c, .ok false) => (c, .ok ())
    | (c, .error e) => (c, .error e)

/-- client.py lines 355-361, Client.process: one round - up to
MAX_MSGS_PER_ROUND send attempts, then up to MAX_MSGS_PER_ROUND receive
attempts. -/
def process (c : Client) : Client × Except Error Unit :=
  let sl := sendLoop MAX_MSGS_PER_ROUND c
  match sl.2 with
  | .error e => (sl.1, .error e)
  | .ok _ => recvLoop MAX_MSGS_PER_ROUND sl.1

/-- client.py lines 140-145, wait: poll transport readiness and pump the
connection until the criteria holds.  The blocking poll is external; the
embedding bounds the loop by fuel and reports whether the criteria held
when it stopped. -/
def wait : Nat → Client → (Client → Bool) → Client × Except Error Bool
  | 0, c, criteria => (c, .ok (criteria c))
  | fuel + 1, c, criteria =>
    if criteria c then (c, .ok true)
    else
      let pc := process c
      match pc.2 with
      | .error e => (pc.1, .error e)
      | .ok _ => wait fuel pc.1 criteria

/-- client.py lines 333-344, Client.async_request: allocate a transaction
id, construct the Transaction, produce and enqueue the serialized request,
register the transaction, attempt an immediate send, and return the
transaction id. -/
def async_request (c : Client) (ta_type : TaType) (request_args : List Value)
    (request_optargs : List (String × Value)) (response_cb : CbTag) :
    Client × Except Error Int :=
  let (ta_id, c) := next_ta_id c
  let transaction : Transaction :=
    { ta_id := ta_id, ta_type := ta_type, state := TransactionState.IDLE,
      cb := response_cb }
  match produce_request transaction request_args request_optargs with
  | .error e => (c, .error e)
  | .ok (transaction, request_msg) =>
    let out_wire_msg := WireMsg.data request_msg
    let c := { c with out_wire_msgs := c.out_wire_msgs ++ [out_wire_msg],
                      transactions := c.transactions ++ [(ta_id, transaction)] }
    let ts := try_send c
    match ts.2 with
    | .error e => (ts.1, .error e)
    | .ok _ => (ts.1, .ok ta_id)

/-- client.py lines 259-263 with a response callback: Client.hello as
invoked by initial_hello - issue_request with the initial_hello_cb
response callback dispatches to async_request. -/
def hello_initial (c : Client) : Client × Except Error Int :=
  async_request c TA_HELLO
    [Value.int c.client_id, Value.int VERSION, Value.int VERSION] []
    CbTag.initialHello

/-- client.py lines 234-237, Client.initial_hello: issue the hello
transaction with initial_hello_cb as its handler and, when no ready
callback was supplied, block in wait until the negotiated version is
recorded. -/
def initial_hello (c : Client) (fuel : Nat) : Client × Except Error Unit :=
  let hi := hello_initial c
  match hi.2 with
  | .error e => (hi.1, .error e)
  | .ok _ =>
    if hi.1.has_ready_cb then (hi.1, .ok ())
    else
      let w := wait fuel hi.1 (fun c => c.proto_version.isSome)
      match w.2 with
      | .error e => (w.1, .error e)
      | .ok _ => (w.1, .ok ())

/-- client.py lines 216-232, Client.__init__ after the transport connect
succeeded (the scripted transport handle is supplied): initialize the
state, recompute readiness interest, and run the initial handshake; a paf
Error raised by it closes the transport handle before propagating. -/
def Client.init (client_id : Int) (sock0 : Sock) (has_ready_cb : Bool)
    (fuel : Nat) : Client × Except Error Unit :=
  let c : Client :=
    { client_id := client_id, sock := sock0, ta_id := 0, out_wire_msgs := [],
      transactions := [], proto_version := none, has_ready_cb := has_ready_cb,
      ready_fired := false, delivered := [] }
  let c := update c
  let ih := initial_hello c fuel
  match ih.2 with
  | .ok _ => (ih.1, .ok ())
  | .error e =>
    if e.isPafError then (Client.close ih.1, .error e) else (ih.1, .error e)

/-- The operations a caller and the pump can interleave on one connection,
as far as the outgoing queue is concerned: issuing a request, one send
attempt, one receive attempt. -/
inductive COp where
  | request (ta_type : TaType) (args : List Value)
      (optargs : List (String × Value)) (cb : CbTag)
  | send
  | recv
deriving Repr

/-- Runs a sequence of connection operations, stopping at the first
raised error. -/
def runOps : Client → List COp → Client × Except Error Unit
  | c, [] => (c, .ok ())
  | c, op :: ops =>
    let step : Client × Except Error Unit :=
      match op with
      | COp.request tt args optargs cb =>
        let r := async_request c tt args optargs cb
        (r.1, r.2.map (fun _ => ()))
      | COp.send =>
        let r := try_send c
        (r.1, r.2.map (fun _ => ()))
      | COp.recv =>
        let r := try_receive c
        (r.1, r.2.map (fun _ => ()))
    match step.2 with
    | .error e => (step.1, .error e)
    | .ok _ => runOps step.1 ops

/-- The transaction ids produced by n successive next_ta_id calls. -/
def allocTrace (c : Client) : Nat → List Int
  | 0 => []
  | n + 1 =>
    let (i, c') := next_ta_id c
    i :: allocTrace c' n


lemma allocTrace_le (n : Nat) : ∀ (c : Client), ∀ x ∈ allocTrace c n, c.ta_id ≤ x := by
  induction n with
  | zero => intro c x hx; simp [allocTrace] at hx
  | succ n ih =>
    intro c x hx
    simp only [allocTrace, next_ta_id, List.mem_cons] at hx
    rcases hx with h | h
    · exact le_of_eq h.symm
    · have h2 : c.ta_id + 1 ≤ x := ih { c with ta_id := c.ta_id + 1 } x h
      omega

/-- Claim C6: the transaction ids returned by successive allocator calls on
one connection are strictly increasing, and no id is ever returned twice. -/
theorem c6_ta_ids_strictly_increasing (c : Client) (n : Nat) :
    List.Pairwise (· < ·) (allocTrace c n) ∧ (allocTrace c n).Nodup := by
  have hp : ∀ m : Nat, ∀ c' : Client, List.Pairwise (· < ·) (allocTrace c' m) := by
    intro m
    induction m with
    | zero => intro c'; simp [allocTrace]
    | succ m ih =>
      intro c'
      simp only [allocTrace, next_ta_id]
      refine List.Pairwise.cons ?_ (ih _)
      intro x hx
      have h2 : c'.ta_id + 1 ≤ x :=
        allocTrace_le m { c' with ta_id := c'.ta_id + 1 } x hx
      omega
  exact ⟨hp n c, (hp n c).imp (fun h => ne_of_lt h)⟩

lemma runCb_sock (cb : CbTag) (c : Client) (i : Int) (ev : EventType)
    (args : List Value) (optargs : List (String × Value)) :
    (runCb cb c i ev args optargs).1.sock = c.sock := by
  cases cb with
  | external => rfl
  | initialHello =>
    unfold runCb initial_hello_cb
    dsimp only
    repeat' split
    all_goals rfl

lemma try_send_sent_le (c : Client) :
    (try_send c).1.sock.sent.length ≤ c.sock.sent.length + 1 := by
  unfold try_send
  dsimp only
  repeat' split
  all_goals simp [update]

lemma try_send_recvQueue (c : Client) :
    (try_send c).1.sock.recvQueue = c.sock.recvQueue := by
  unfold try_send
  dsimp only
  repeat' split
  all_goals rfl

lemma try_receive_sent (c : Client) :
    (try_receive c).1.sock.sent = c.sock.sent := by
  unfold try_receive
  dsimp only
  repeat' split
  all_goals (first | rfl | simp [update, runCb_sock])

lemma try_receive_recvQueue_le (c : Client) :
    c.sock.recvQueue.length ≤ (try_receive c).1.sock.recvQueue.length + 1 := by
  unfold try_receive
  dsimp only
  split
  · simp [update]
  · rename_i o rest h
    rw [h]
    repeat' split
    all_goals simp [update, runCb_sock]

lemma sendLoop_sent_le (n : Nat) : ∀ c : Client,
    (sendLoop n c).1.sock.sent.length ≤ c.sock.sent.length + n := by
  induction n with
  | zero => intro c; simp [sendLoop]
  | succ n ih =>
    intro c
    unfold sendLoop
    split
    · rename_i c' heq
      have h1 : c'.sock.sent.length ≤ c.sock.sent.length + 1 := by
        have h := try_send_sent_le c; rw [heq] at h; exact h
      have h2 := ih c'
      omega
    · rename_i c' heq
      have h1 : c'.sock.sent.length ≤ c.sock.sent.length + 1 := by
        have h := try_send_sent_le c; rw [heq] at h; exact h
      show c'.sock.sent.length ≤ c.sock.sent.length + (n + 1)
      omega
    · rename_i c' e heq
      have h1 : c'.sock.sent.length ≤ c.sock.sent.length + 1 := by
        have h := try_send_sent_le c; rw [heq] at h; exact h
      show c'.sock.sent.length ≤ c.sock.sent.length + (n + 1)
      omega

lemma sendLoop_recvQueue (n : Nat) : ∀ c : Client,
    (sendLoop n c).1.sock.recvQueue = c.sock.recvQueue := by
  induction n with
  | zero => intro c; simp [sendLoop]
  | succ n ih =>
    intro c
    unfold sendLoop
    split
    · rename_i c' heq
      rw [ih c']
      have h := try_send_recvQueue c; rw [heq] at h; exact h
    · rename_i c' heq
      have h := try_send_recvQueue c; rw [heq] at h; exact h
    · rename_i c' e heq
      have h := try_send_recvQueue c; rw [heq] at h; exact h

lemma recvLoop_sent (n : Nat) : ∀ c : Client,
    (recvLoop n c).1.sock.sent = c.sock.sent := by
  induction n with
  | zero => intro c; simp [recvLoop]
  | succ n ih =>
    intro c
    unfold recvLoop
    split
    · rename_i c' heq
      rw [ih c']
      have h := try_receive_sent c; rw [heq] at h; exact h
    · rename_i c' heq
      have h := try_receive_sent c; rw [heq] at h; exact h
    · rename_i c' e heq
      have h := try_receive_sent c; rw [heq] at h; exact h

lemma recvLoop_recvQueue_le (n : Nat) : ∀ c : Client,
    c.sock.recvQueue.length ≤ (recvLoop n c).1.sock.recvQueue.length + n := by
  induction n with
  | zero => intro c; simp [recvLoop]
  | succ n ih =>
    intro c
    unfold recvLoop
    split
    · rename_i c' heq
      have h1 : c.sock.recvQueue.length ≤ c'.sock.recvQueue.length + 1 := by
        have h := try_receive_recvQueue_le c; rw [heq] at h; exact h
      have h2 := ih c'
      omega
    · rename_i c' heq
      have h1 : c.sock.recvQueue.length ≤ c'.sock.recvQueue.length + 1 := by
        have h := try_receive_recvQueue_le c; rw [heq] at h; exact h
      show c.sock.recvQueue.length ≤ c'.sock.recvQueue.length + (n + 1)
      omega
    · rename_i c' e heq
      have h1 : c.sock.recvQueue.length ≤ c'.sock.recvQueue.length + 1 := by
        have h := try_receive_recvQueue_le c; rw [heq] at h; exact h
      show c.sock.recvQueue.length ≤ c'.sock.recvQueue.length + (n + 1)
      omega

/-- Claim C7: one process round sends at most MAX_MSGS_PER_ROUND (128)
messages and consumes at most MAX_MSGS_PER_ROUND receive outcomes,
regardless of the queue or inbound depth: the transmitted-message log
grows by at most 128 and the inbound script shrinks by at most 128. -/
theorem c7_process_round_bound (c : Client) :
    (process c).1.sock.sent.length ≤ c.sock.sent.length + MAX_MSGS_PER_ROUND ∧
    c.sock.recvQueue.length ≤ (process c).1.sock.recvQueue.length + MAX_MSGS_PER_ROUND := by
  unfold process
  dsimp only
  have h1 := sendLoop_sent_le MAX_MSGS_PER_ROUND c
  have h2 := sendLoop_recvQueue MAX_MSGS_PER_ROUND c
  split
  · exact ⟨h1, by rw [h2]; omega⟩
  · have h3 := recvLoop_sent MAX_MSGS_PER_ROUND (sendLoop MAX_MSGS_PER_ROUND c).1
    have h4 := recvLoop_recvQueue_le MAX_MSGS_PER_ROUND (sendLoop MAX_MSGS_PER_ROUND c).1
    constructor
    · rw [h3]; exact h1
    · rw [h2] at h4; omega

/-- A concrete peer-supplied failure reason used in the C4 evaluation. -/
def reasonBusy : String := "busy"

/-- The TransactionError message the source builds for that reason. -/
def builtBusyMessage : String := "Protocol transaction failed: busy."

/-- Claim C4 (code bug): get() on a blocking adapter whose transaction
FAILed without a peer-supplied reason does not raise the unspecified-reason
transaction error the spec describes - TransactionError.__init__ applies
the percent operator to a format string with no conversion specifier and
the None reason, so a TypeError is raised instead.  With a reason present,
and on COMPLETE, get() behaves as specified. -/
theorem c4_fail_reason_typeerror :
    CallState.get { ta_id := some 0, result := some EventType.FAIL, reason := none } =
      .error Error.typeError ∧
    CallState.get { ta_id := some 0, result := some EventType.FAIL,
                    reason := some (Value.str reasonBusy) } =
      .error (Error.transactionError builtBusyMessage) ∧
    CallState.get { ta_id := some 0, result := some EventType.COMPLETE, reason := none } =
      .ok () :=
  ⟨rfl, rfl, rfl⟩

/-- The readiness-interest invariant: receive interest always registered,
send interest registered exactly when the outgoing queue is non-empty. -/
abbrev CondInv (c : Client) : Prop :=
  c.sock.cond.receivable = true ∧
  (c.sock.cond.sendable = true ↔ c.out_wire_msgs ≠ [])

lemma condInv_update (c : Client) : CondInv (update c) := by
  refine ⟨rfl, ?_⟩
  simp [update, List.length_pos]

lemma condInv_try_send (c : Client) : CondInv (try_send c).1 := by
  unfold try_send
  dsimp only
  repeat' split
  all_goals exact condInv_update _

lemma condInv_try_receive (c : Client) : CondInv (try_receive c).1 := by
  unfold try_receive
  dsimp only
  repeat' split
  all_goals exact condInv_update _

lemma condInv_sendLoop (n : Nat) : ∀ c : Client, CondInv c →
    CondInv (sendLoop n c).1 := by
  induction n with
  | zero => intro c hc; exact hc
  | succ n ih =>
    intro c hc
    unfold sendLoop
    split
    · rename_i c' heq
      refine ih c' ?_
      have h := condInv_try_send c; rw [heq] at h; exact h
    · rename_i c' heq
      have h := condInv_try_send c; rw [heq] at h; exact h
    · rename_i c' e heq
      have h := condInv_try_send c; rw [heq] at h; exact h

lemma condInv_recvLoop (n : Nat) : ∀ c : Client, CondInv c →
    CondInv (recvLoop n c).1 := by
  induction n with
  | zero => intro c hc; exact hc
  | succ n ih =>
    intro c hc
    unfold recvLoop
    split
    · rename_i c' heq
      refine ih c' ?_
      have h := condInv_try_receive c; rw [heq] at h; exact h
    · rename_i c' heq
      have h := condInv_try_receive c; rw [heq] at h; exact h
    · rename_i c' e heq
      have h := condInv_try_receive c; rw [heq] at h; exact h

lemma condInv_process (c : Client) (hc : CondInv c) : CondInv (process c).1 := by
  unfold process
  dsimp only
  split
  · exact condInv_sendLoop _ c hc
  · exact condInv_recvLoop _ _ (condInv_sendLoop _ c hc)

lemma condInv_wait (fuel : Nat) : ∀ (c : Client) criteria, CondInv c →
    CondInv (wait fuel c criteria).1 := by
  induction fuel with
  | zero => intro c criteria hc; exact hc
  | succ fuel ih =>
    intro c criteria hc
    unfold wait
    dsimp only
    split
    · exact hc
    · split
      · exact condInv_process c hc
      · exact ih _ _ (condInv_process c hc)

lemma condInv_async_request (c : Client) (tt : TaType) (args : List Value)
    (optargs : List (String × Value)) (cb : CbTag) (hc : CondInv c) :
    CondInv (async_request c tt args optargs cb).1 := by
  unfold async_request
  simp only [next_ta_id]
  split
  · exact hc
  · split
    · exact condInv_try_send _
    · exact condInv_try_send _

lemma condInv_close (c : Client) (hc : CondInv c) : CondInv (Client.close c) := hc

lemma condInv_initial_hello (c : Client) (fuel : Nat) (hc : CondInv c) :
    CondInv (initial_hello c fuel).1 := by
  unfold initial_hello
  dsimp only
  have h1 : CondInv (hello_initial c).1 := condInv_async_request _ _ _ _ _ hc
  split
  · exact h1
  · split
    · exact h1
    · split
      · exact condInv_wait _ _ _ h1
      · exact condInv_wait _ _ _ h1

/-- Claim C10: after construction, after every send attempt, after every
receive attempt, and after every request enqueue, the transport readiness
interest has been recomputed so that receive interest is registered and
send interest is registered exactly when the outgoing queue is non-empty. -/
theorem c10_readiness_interest :
    (∀ (client_id : Int) (sock0 : Sock) (has_ready_cb : Bool) (fuel : Nat),
       CondInv (Client.init client_id sock0 has_ready_cb fuel).1) ∧
    (∀ c : Client, CondInv (try_send c).1) ∧
    (∀ c : Client, CondInv (try_receive c).1) ∧
    (∀ (c : Client) (tt : TaType) (args : List Value)
       (optargs : List (String × Value)) (cb : CbTag), CondInv c →
       CondInv (async_request c tt args optargs cb).1) := by
  refine ⟨?_, condInv_try_send, condInv_try_receive, condInv_async_request⟩
  intro client_id sock0 has_ready_cb fuel
  unfold Client.init
  dsimp only
  have h1 : CondInv (initial_hello (update
      { client_id := client_id, sock := sock0, ta_id := 0, out_wire_msgs := [],
        transactions := [], proto_version := none, has_ready_cb := has_ready_cb,
        ready_fired := false, delivered := [] }) fuel).1 :=
    condInv_initial_hello _ fuel (condInv_update _)
  split
  · exact h1
  · split
    · exact condInv_close _ h1
    · exact h1

/-- Claim C10 witness: the invariant holds after a concrete request
enqueue on a fresh connection state. -/
theorem c10_witness :
    CondInv (async_request
      { client_id := 7,
        sock := { recvQueue := [], sendOutcomes := [], sent := [],
                  cond := { receivable := true, sendable := false },
                  closed := false },
        ta_id := 0, out_wire_msgs := [], transactions := [],
        proto_version := none, has_ready_cb := false, ready_fired := false,
        delivered := [] }
      TA_HELLO [Value.int 7, Value.int VERSION, Value.int VERSION] []
      CbTag.external).1 :=
  c10_readiness_interest.2.2.2 _ TA_HELLO _ _ CbTag.external (by decide)

lemma runCb_out (cb : CbTag) (c : Client) (i : Int) (ev : EventType)
    (args : List Value) (optargs : List (String × Value)) :
    (runCb cb c i ev args optargs).1.out_wire_msgs = c.out_wire_msgs := by
  cases cb with
  | external => rfl
  | initialHello =>
    unfold runCb initial_hello_cb
    dsimp only
    repeat' split
    all_goals rfl

lemma try_receive_out (c : Client) :
    (try_receive c).1.out_wire_msgs = c.out_wire_msgs := by
  unfold try_receive
  dsimp only
  repeat' split
  all_goals (first | rfl | simp [update, runCb_out])

lemma try_send_step (c : Client) (b : Bool)
    (h : (try_send c).2 = Except.ok b) :
    (try_send c).1.sock.sent ++ (try_send c).1.out_wire_msgs =
      c.sock.sent ++ c.out_wire_msgs ∧
    ∃ d, (try_send c).1.sock.sent = c.sock.sent ++ d := by
  unfold try_send at h ⊢
  rcases hout : c.out_wire_msgs with _ | ⟨m, rest⟩
  · simp only [hout] at h ⊢
    exact ⟨by simp [update, hout], ⟨[], by simp [update]⟩⟩
  · simp only [hout] at h ⊢
    rcases hso : c.sock.sendOutcomes with _ | ⟨o, outs⟩
    · simp only [hso] at h ⊢
      exact ⟨by simp [update, hout], ⟨[], by simp [update]⟩⟩
    · simp only [hso] at h ⊢
      cases o
      · exact ⟨by simp [update, hout], ⟨[m], by simp [update]⟩⟩
      · exact ⟨by simp [update, hout], ⟨[], by simp [update]⟩⟩
      · simp at h

lemma async_request_step (c : Client) (tt : TaType) (args : List Value)
    (optargs : List (String × Value)) (cb : CbTag) (i : Int)
    (h : (async_request c tt args optargs cb).2 = Except.ok i) :
    (∃ w, (async_request c tt args optargs cb).1.sock.sent ++
            (async_request c tt args optargs cb).1.out_wire_msgs =
          c.sock.sent ++ c.out_wire_msgs ++ [w]) ∧
    ∃ d, (async_request c tt args optargs cb).1.sock.sent = c.sock.sent ++ d := by
  unfold async_request at h ⊢
  simp only [next_ta_id] at h ⊢
  rcases hpr : produce_request
      (Transaction.mk c.ta_id tt TransactionState.IDLE cb) args optargs
    with e | ⟨t2, msg⟩
  · simp only [hpr] at h
    simp at h
  · simp only [hpr] at h ⊢
    try dsimp only at h ⊢
    rcases hts : (try_send { c with ta_id := c.ta_id + 1, out_wire_msgs := c.out_wire_msgs ++ [WireMsg.data msg], transactions := c.transactions ++ [(c.ta_id, t2)] }).2 with e | b
    · simp only [hts] at h
      simp at h
    · simp only [hts] at h ⊢
      try dsimp only at h ⊢
      have hstep := try_send_step _ _ hts
      constructor
      · refine ⟨WireMsg.data msg, ?_⟩
        rw [hstep.1]
        simp
      · exact hstep.2

/-- Claim C5, stated as a single-step fact plus a trace invariant: a
would-block send attempt leaves the queue unchanged with the popped
message back at the front; and across any sequence of request enqueues,
send attempts and receive attempts that raises no error, the transmitted
log only grows at its end and transmitted-then-pending equals the original
transmitted-then-pending followed by the newly enqueued wire messages -
messages leave the queue strictly in enqueue order. -/
theorem c5_fifo_order :
    (∀ (c : Client) (m : WireMsg) (rest : List WireMsg)
       (outs : List SendOutcome),
       c.out_wire_msgs = m :: rest →
       c.sock.sendOutcomes = SendOutcome.eagain :: outs →
       (try_send c).1.out_wire_msgs = m :: rest) ∧
    (∀ (c : Client) (ops : List COp),
       (runOps c ops).2 = Except.ok () →
       (∃ new, (runOps c ops).1.sock.sent ++ (runOps c ops).1.out_wire_msgs =
               c.sock.sent ++ c.out_wire_msgs ++ new) ∧
       (∃ d, (runOps c ops).1.sock.sent = c.sock.sent ++ d)) := by
  constructor
  · intro c m rest outs hout hso
    unfold try_send
    simp only [hout, hso]
    simp [update]
  · intro c ops
    induction ops generalizing c with
    | nil =>
      intro _
      exact ⟨⟨[], by simp [runOps]⟩, ⟨[], by simp [runOps]⟩⟩
    | cons op ops ih =>
      intro h
      unfold runOps at h ⊢
      dsimp only at h ⊢
      rcases op with ⟨tt, args, optargs, cb⟩ | _ | _
      all_goals dsimp only at h ⊢
      · rcases har : (async_request c tt args optargs cb).2 with e | i
        · simp only [har, Except.map] at h
          simp at h
        · simp only [har, Except.map] at h ⊢
          have hstep := async_request_step c tt args optargs cb i har
          have hrec := ih _ h
          obtain ⟨⟨w, hw⟩, ⟨d1, hd1⟩⟩ := hstep
          obtain ⟨⟨new2, hnew2⟩, ⟨d2, hd2⟩⟩ := hrec
          constructor
          · refine ⟨[w] ++ new2, ?_⟩
            rw [hnew2, hw]
            simp
          · refine ⟨d1 ++ d2, ?_⟩
            rw [hd2, hd1]
            simp
      · rcases hts : (try_send c).2 with e | b
        · simp only [hts, Except.map] at h
          simp at h
        · simp only [hts, Except.map] at h ⊢
          have hstep := try_send_step c b hts
          have hrec := ih _ h
          obtain ⟨heq, ⟨d1, hd1⟩⟩ := hstep
          obtain ⟨⟨new2, hnew2⟩, ⟨d2, hd2⟩⟩ := hrec
          constructor
          · refine ⟨new2, ?_⟩
            rw [hnew2, heq]
          · refine ⟨d1 ++ d2, ?_⟩
            rw [hd2, hd1]
            simp
      · rcases htr : (try_receive c).2 with e | b
        · simp only [htr, Except.map] at h
          simp at h
        · simp only [htr, Except.map] at h ⊢
          have hsent := try_receive_sent c
          have hout := try_receive_out c
          have hrec := ih _ h
          obtain ⟨⟨new2, hnew2⟩, ⟨d2, hd2⟩⟩ := hrec
          constructor
          · refine ⟨new2, ?_⟩
            rw [hnew2, hsent, hout]
          · refine ⟨d2, ?_⟩
            rw [hd2, hsent]

/-- The concrete fresh connection state used by the C5 witness. -/
def freshClient : Client :=
  { client_id := 7,
    sock := { recvQueue := [], sendOutcomes := [SendOutcome.eagain, SendOutcome.ok],
              sent := [], cond := { receivable := true, sendable := false },
              closed := false },
    ta_id := 0, out_wire_msgs := [], transactions := [],
    proto_version := none, has_ready_cb := false, ready_fired := false,
    delivered := [] }

/-- The concrete operation trace used by the C5 witness: one request
whose immediate send attempt would-blocks, then a successful send
attempt. -/
def fifoOps : List COp :=
  [COp.request TA_SUBSCRIBE [Value.int 9] [] CbTag.external, COp.send]

/-- Claim C5 witness: the trace invariant applied to the concrete trace. -/
theorem c5_witness :
    (∃ new, (runOps freshClient fifoOps).1.sock.sent ++
            (runOps freshClient fifoOps).1.out_wire_msgs =
            freshClient.sock.sent ++ freshClient.out_wire_msgs ++ new) ∧
    (∃ d, (runOps freshClient fifoOps).1.sock.sent =
          freshClient.sock.sent ++ d) :=
  c5_fifo_order.2 freshClient fifoOps (by rfl)

/-- A well-formed incoming message: the command field, then the
message-kind marker, then the remaining fields. -/
def headerMsg (cmd : String) (mt : Value) (rest : Msg) : Msg :=
  (FIELD_TA_CMD, Value.str cmd) :: (FIELD_MSG_TYPE, mt) :: rest

lemma consume_message_headerMsg (t : Transaction) (mt : Value) (rest : Msg) :
    consume_message t (headerMsg t.ta_type.cmd mt rest) =
      match consumeDispatch t.ta_type t.state mt with
      | none =>
        (t, Except.error (Error.protocolError
          (ProtoErrKind.invalidMsgType mt t.ta_type.cmd t.ta_id t.state.pyName)))
      | some (event, fields, opt_fields, st') =>
        match pullMany fields (msgErase FIELD_MSG_TYPE (msgErase FIELD_TA_CMD rest)) with
        | .error e => ({ t with state := st' }, .error e)
        | .ok (args, rem) =>
          let pr := pullOpts opt_fields rem
          if pr.2.length > 0 then
            ({ t with state := st' },
             .error (.protocolError (.unknownFields (msgKeys pr.2))))
          else
            ({ t with state := st' }, .ok (event, args, pr.1)) := by
  unfold consume_message headerMsg
  have h1 : msgPull FIELD_TA_CMD
      ((FIELD_TA_CMD, Value.str t.ta_type.cmd) :: (FIELD_MSG_TYPE, mt) :: rest) =
      .ok (Value.str t.ta_type.cmd, (FIELD_MSG_TYPE, mt) :: msgErase FIELD_TA_CMD rest) := by
    simp [msgPull, lookupVal, msgErase, FIELD_TA_CMD, FIELD_MSG_TYPE]
  rw [h1]
  have h2 : msgPull FIELD_MSG_TYPE ((FIELD_MSG_TYPE, mt) :: msgErase FIELD_TA_CMD rest) =
      .ok (mt, msgErase FIELD_MSG_TYPE (msgErase FIELD_TA_CMD rest)) := by
    simp [msgPull, lookupVal, msgErase]
  simp only [ne_eq, not_true_eq_false, if_neg, ite_false]
  rw [h2]

lemma pullMany_error (fields : List String) (m : Msg) (e : Error)
    (h : pullMany fields m = .error e) :
    ∃ k, e = Error.protocolError (ProtoErrKind.missingField k) := by
  induction fields generalizing m with
  | nil => simp [pullMany] at h
  | cons f fs ih =>
    unfold pullMany at h
    rcases hp : msgPull f m with e' | ⟨v, m'⟩
    · rw [hp] at h
      unfold msgPull at hp
      rcases hl : lookupVal f m with _ | v
      · rw [hl] at hp
        simp at hp h
        exact ⟨f, by rw [← h, ← hp]⟩
      · rw [hl] at hp
        simp at hp
    · rw [hp] at h
      dsimp only at h
      rcases hq : pullMany fs m' with e' | ⟨vs, m''⟩
      · rw [hq] at h
        simp at h
        subst h
        exact ih m' hq
      · rw [hq] at h
        simp at h

lemma consume_legal_result (t : Transaction) (mt : Value) (rest : Msg)
    (ev : EventType) (fields opt_fields : List String) (st' : TransactionState)
    (hd : consumeDispatch t.ta_type t.state mt = some (ev, fields, opt_fields, st')) :
    (consume_message t (headerMsg t.ta_type.cmd mt rest)).1 = { t with state := st' } ∧
    (consume_message t (headerMsg t.ta_type.cmd mt rest)).2 ≠
      Except.error (Error.protocolError
        (ProtoErrKind.invalidMsgType mt t.ta_type.cmd t.ta_id t.state.pyName)) := by
  rw [consume_message_headerMsg, hd]
  dsimp only
  rcases hp : pullMany fields (msgErase FIELD_MSG_TYPE (msgErase FIELD_TA_CMD rest))
    with e | ⟨args, rem⟩
  · obtain ⟨k, hk⟩ := pullMany_error _ _ _ hp
    subst hk
    exact ⟨rfl, by simp⟩
  · dsimp only
    split
    · exact ⟨rfl, by simp⟩
    · exact ⟨rfl, by simp⟩

/-- Claim C1 (amended): consume_message on a message bearing this
transaction's command accepts exactly these combinations: ACCEPT only in
REQUESTING for a multi-response transaction (new state ACCEPTED); NOTIFY
only in ACCEPTED (state unchanged); COMPLETE only in REQUESTING for
single-response or ACCEPTED for multi-response (new state TERMINATED);
FAIL in every state - including TERMINATED - with new state TERMINATED;
every other combination is rejected with the invalid-message-type protocol
error and leaves the transaction unchanged. -/
theorem c1_transition_table (t : Transaction) (mt : Value) (rest : Msg) :
    ((mt = Value.str MSG_TYPE_ACCEPT ∧ t.state = TransactionState.REQUESTING ∧
        t.ta_type.ia_type = InteractionType.MULTI_RESPONSE) →
      (consume_message t (headerMsg t.ta_type.cmd mt rest)).1 =
        { t with state := TransactionState.ACCEPTED } ∧
      (consume_message t (headerMsg t.ta_type.cmd mt rest)).2 ≠
        Except.error (Error.protocolError
          (ProtoErrKind.invalidMsgType mt t.ta_type.cmd t.ta_id t.state.pyName))) ∧
    ((mt = Value.str MSG_TYPE_NOTIFY ∧ t.state = TransactionState.ACCEPTED) →
      (consume_message t (headerMsg t.ta_type.cmd mt rest)).1 = t ∧
      (consume_message t (headerMsg t.ta_type.cmd mt rest)).2 ≠
        Except.error (Error.protocolError
          (ProtoErrKind.invalidMsgType mt t.ta_type.cmd t.ta_id t.state.pyName))) ∧
    ((mt = Value.str MSG_TYPE_COMPLETE ∧
        ((t.state = TransactionState.REQUESTING ∧
          t.ta_type.ia_type = InteractionType.SINGLE_RESPONSE) ∨
         (t.state = TransactionState.ACCEPTED ∧
          t.ta_type.ia_type = InteractionType.MULTI_RESPONSE))) →
      (consume_message t (headerMsg t.ta_type.cmd mt rest)).1 =
        { t with state := TransactionState.TERMINATED } ∧
      (consume_message t (headerMsg t.ta_type.cmd mt rest)).2 ≠
        Except.error (Error.protocolError
          (ProtoErrKind.invalidMsgType mt t.ta_type.cmd t.ta_id t.state.pyName))) ∧
    ((mt = Value.str MSG_TYPE_FAIL) →
      (consume_message t (headerMsg t.ta_type.cmd mt rest)).1 =
        { t with state := TransactionState.TERMINATED } ∧
      (consume_message t (headerMsg t.ta_type.cmd mt rest)).2 ≠
        Except.error (Error.protocolError
          (ProtoErrKind.invalidMsgType mt t.ta_type.cmd t.ta_id t.state.pyName))) ∧
    ((¬(mt = Value.str MSG_TYPE_ACCEPT ∧ t.state = TransactionState.REQUESTING ∧
         t.ta_type.ia_type = InteractionType.MULTI_RESPONSE) ∧
      ¬(mt = Value.str MSG_TYPE_NOTIFY ∧ t.state = TransactionState.ACCEPTED) ∧
      ¬(mt = Value.str MSG_TYPE_COMPLETE ∧
         ((t.state = TransactionState.REQUESTING ∧
           t.ta_type.ia_type = InteractionType.SINGLE_RESPONSE) ∨
          (t.state = TransactionState.ACCEPTED ∧
           t.ta_type.ia_type = InteractionType.MULTI_RESPONSE))) ∧
      ¬(mt = Value.str MSG_TYPE_FAIL)) →
      consume_message t (headerMsg t.ta_type.cmd mt rest) =
        (t, Except.error (Error.protocolError
          (ProtoErrKind.invalidMsgType mt t.ta_type.cmd t.ta_id t.state.pyName)))) := by
  refine ⟨?_, ?_, ?_, ?_, ?_⟩
  · rintro ⟨hmt, hst, hia⟩
    have hd : consumeDispatch t.ta_type t.state mt =
        some (EventType.ACCEPT, t.ta_type.accept_fields,
              t.ta_type.opt_accept_fields, TransactionState.ACCEPTED) := by
      unfold consumeDispatch
      rw [if_pos ⟨hmt, hst, hia⟩]
    exact consume_legal_result t mt rest _ _ _ _ hd
  · rintro ⟨hmt, hst⟩
    have hn1 : ¬(mt = Value.str MSG_TYPE_ACCEPT ∧
        t.state = TransactionState.REQUESTING ∧
        t.ta_type.ia_type = InteractionType.MULTI_RESPONSE) := by
      rintro ⟨h1, -, -⟩
      rw [hmt] at h1
      simp [MSG_TYPE_ACCEPT, MSG_TYPE_NOTIFY] at h1
    have hd : consumeDispatch t.ta_type t.state mt =
        some (EventType.NOTIFY, t.ta_type.notify_fields,
              t.ta_type.opt_notify_fields, t.state) := by
      unfold consumeDispatch
      rw [if_neg hn1, if_pos ⟨hmt, hst⟩]
    have h := consume_legal_result t mt rest _ _ _ _ hd
    exact ⟨h.1, h.2⟩
  · rintro ⟨hmt, hor⟩
    have hn1 : ¬(mt = Value.str MSG_TYPE_ACCEPT ∧
        t.state = TransactionState.REQUESTING ∧
        t.ta_type.ia_type = InteractionType.MULTI_RESPONSE) := by
      rintro ⟨h1, -, -⟩
      rw [hmt] at h1
      simp [MSG_TYPE_ACCEPT, MSG_TYPE_COMPLETE] at h1
    have hn2 : ¬(mt = Value.str MSG_TYPE_NOTIFY ∧
        t.state = TransactionState.ACCEPTED) := by
      rintro ⟨h1, -⟩
      rw [hmt] at h1
      simp [MSG_TYPE_NOTIFY, MSG_TYPE_COMPLETE] at h1
    have hd : consumeDispatch t.ta_type t.state mt =
        some (EventType.COMPLETE, t.ta_type.complete_fields,
              t.ta_type.opt_complete_fields, TransactionState.TERMINATED) := by
      unfold consumeDispatch
      rw [if_neg hn1, if_neg hn2, if_pos ⟨hmt, hor⟩]
    exact consume_legal_result t mt rest _ _ _ _ hd
  · intro hmt
    have hn1 : ¬(mt = Value.str MSG_TYPE_ACCEPT ∧
        t.state = TransactionState.REQUESTING ∧
        t.ta_type.ia_type = InteractionType.MULTI_RESPONSE) := by
      rintro ⟨h1, -, -⟩
      rw [hmt] at h1
      simp [MSG_TYPE_ACCEPT, MSG_TYPE_FAIL] at h1
    have hn2 : ¬(mt = Value.str MSG_TYPE_NOTIFY ∧
        t.state = TransactionState.ACCEPTED) := by
      rintro ⟨h1, -⟩
      rw [hmt] at h1
      simp [MSG_TYPE_NOTIFY, MSG_TYPE_FAIL] at h1
    have hn3 : ¬(mt = Value.str MSG_TYPE_COMPLETE ∧
        ((t.state = TransactionState.REQUESTING ∧
          t.ta_type.ia_type = InteractionType.SINGLE_RESPONSE) ∨
         (t.state = TransactionState.ACCEPTED ∧
          t.ta_type.ia_type = InteractionType.MULTI_RESPONSE))) := by
      rintro ⟨h1, -⟩
      rw [hmt] at h1
      simp [MSG_TYPE_COMPLETE, MSG_TYPE_FAIL] at h1
    have hd : consumeDispatch t.ta_type t.state mt =
        some (EventType.FAIL, t.ta_type.fail_fields,
              t.ta_type.opt_fail_fields, TransactionState.TERMINATED) := by
      unfold consumeDispatch
      rw [if_neg hn1, if_neg hn2, if_neg hn3, if_pos hmt]
    exact consume_legal_result t mt rest _ _ _ _ hd
  · rintro ⟨hn1, hn2, hn3, hn4⟩
    have hd : consumeDispatch t.ta_type t.state mt = none := by
      unfold consumeDispatch
      rw [if_neg hn1, if_neg hn2, if_neg hn3, if_neg hn4]
    rw [consume_message_headerMsg, hd]

/-- Claim C1 counterexample: a FAIL message for a transaction already in
the terminal state is accepted by consume_message (the source checks no
state for FAIL), emitting the FAIL event instead of raising the protocol
error the claim requires for a terminal-state transaction. -/
theorem c1_counterexample :
    (consume_message
      { ta_id := 0, ta_type := TA_HELLO, state := TransactionState.TERMINATED,
        cb := CbTag.external }
      (headerMsg TA_HELLO.cmd (Value.str MSG_TYPE_FAIL) [])).1.state =
      TransactionState.TERMINATED ∧
    (consume_message
      { ta_id := 0, ta_type := TA_HELLO, state := TransactionState.TERMINATED,
        cb := CbTag.external }
      (headerMsg TA_HELLO.cmd (Value.str MSG_TYPE_FAIL) [])).2 =
      Except.ok (EventType.FAIL, [], []) :=
  ⟨rfl, rfl⟩

/-- Claim C1 witness: the amended table applied to a concrete legal
combination - an ACCEPT for a multi-response subscribe transaction in
REQUESTING moves it to ACCEPTED. -/
theorem c1_witness :
    (consume_message
      { ta_id := 1, ta_type := TA_SUBSCRIBE, state := TransactionState.REQUESTING,
        cb := CbTag.external }
      (headerMsg TA_SUBSCRIBE.cmd (Value.str MSG_TYPE_ACCEPT) [])).1 =
      { ta_id := 1, ta_type := TA_SUBSCRIBE, state := TransactionState.ACCEPTED,
        cb := CbTag.external } ∧
    (consume_message
      { ta_id := 1, ta_type := TA_SUBSCRIBE, state := TransactionState.REQUESTING,
        cb := CbTag.external }
      (headerMsg TA_SUBSCRIBE.cmd (Value.str MSG_TYPE_ACCEPT) [])).2 ≠
      Except.error (Error.protocolError
        (ProtoErrKind.invalidMsgType (Value.str MSG_TYPE_ACCEPT) TA_SUBSCRIBE.cmd 1
          TransactionState.REQUESTING.pyName)) :=
  (c1_transition_table
    { ta_id := 1, ta_type := TA_SUBSCRIBE, state := TransactionState.REQUESTING,
      cb := CbTag.external }
    (Value.str MSG_TYPE_ACCEPT) []).1 ⟨rfl, rfl, rfl⟩

lemma msgErase_not_mem (k : String) (m : Msg) (h : k ∉ msgKeys m) :
    msgErase k m = m := by
  unfold msgErase
  rw [List.filter_eq_self]
  intro a ha
  simp only [bne_iff_ne, ne_eq]
  intro hk
  exact h (hk ▸ List.mem_map_of_mem Prod.fst ha)

lemma lookupVal_none_iff (k : String) (m : Msg) :
    lookupVal k m = none ↔ k ∉ msgKeys m := by
  unfold lookupVal msgKeys
  rw [Option.map_eq_none', List.find?_eq_none]
  constructor
  · intro h hmem
    obtain ⟨p, hp, hpk⟩ := List.mem_map.mp hmem
    exact h p hp (by simp [hpk])
  · intro h p hp
    simp only [beq_iff_eq]
    intro hpk
    exact h (hpk ▸ List.mem_map_of_mem Prod.fst hp)

lemma msgKeys_erase_nodup (o : String) (m : Msg) (h : (msgKeys m).Nodup) :
    (msgKeys (msgErase o m)).Nodup := by
  unfold msgErase msgKeys at *
  exact ((List.filter_sublist m).map Prod.fst).nodup h

lemma lookupVal_msgErase (k o : String) (m : Msg) (hko : k ≠ o) :
    lookupVal k (msgErase o m) = lookupVal k m := by
  induction m with
  | nil => rfl
  | cons p ps ih =>
    rcases p with ⟨a, v⟩
    by_cases ha : a = o
    · subst ha
      have h1 : ((a, v).1 != a) = false := by simp
      have h2 : ((a, v).1 == k) = false := by simp [Ne.symm hko]
      unfold msgErase at *
      unfold lookupVal at *
      rw [List.filter_cons, h1]
      simp only [Bool.false_eq_true, if_false]
      rw [ih, List.find?_cons, h2]
    · by_cases hk : a = k
      · subst hk
        have h1 : ((a, v).1 != o) = true := by simp [ha]
        have h2 : ((a, v).1 == a) = true := by simp
        unfold msgErase lookupVal
        rw [List.filter_cons, h1]
        simp only [if_true]
        rw [List.find?_cons, h2, List.find?_cons, h2]
      · have h1 : ((a, v).1 == k) = false := by simp [hk]
        unfold msgErase at *
        unfold lookupVal at *
        by_cases h2 : ((a, v).1 != o) = true
        · rw [List.filter_cons, h2]
          simp only [if_true]
          rw [List.find?_cons, h1, ih, List.find?_cons, h1]
        · simp only [Bool.not_eq_true] at h2
          rw [List.filter_cons, h2]
          simp only [Bool.false_eq_true, if_false]
          rw [ih, List.find?_cons, h1]

lemma pullMany_zip (fields : List String) : ∀ (vals : List Value) (rest : Msg),
    fields.length = vals.length → fields.Nodup →
    (∀ f ∈ fields, f ∉ msgKeys rest) →
    pullMany fields (fields.zip vals ++ rest) = .ok (vals, rest) := by
  induction fields with
  | nil =>
    intro vals rest hlen _ _
    cases vals with
    | nil => simp [pullMany]
    | cons v vs => simp at hlen
  | cons f fs ih =>
    intro vals rest hlen hnd hdisj
    cases vals with
    | nil => simp at hlen
    | cons v vs =>
      have hfkeys : f ∉ msgKeys (fs.zip vs ++ rest) := by
        intro hmem
        unfold msgKeys at hmem
        rw [List.map_append] at hmem
        rcases List.mem_append.mp hmem with h1 | h2
        · have hlf : f ∈ fs := by
            obtain ⟨p, hp, hfp⟩ := List.mem_map.mp h1
            exact hfp ▸ (List.of_mem_zip hp).1
          exact (List.nodup_cons.mp hnd).1 hlf
        · exact hdisj f (List.mem_cons_self f fs) h2
      have hpull : msgPull f ((f, v) :: (fs.zip vs ++ rest)) =
          .ok (v, fs.zip vs ++ rest) := by
        unfold msgPull
        have hl : lookupVal f ((f, v) :: (fs.zip vs ++ rest)) = some v := by
          unfold lookupVal
          rw [List.find?_cons]
          simp
        rw [hl]
        have he : msgErase f ((f, v) :: (fs.zip vs ++ rest)) = fs.zip vs ++ rest := by
          unfold msgErase
          rw [List.filter_cons]
          simp only [bne_self_eq_false, Bool.false_eq_true, if_false]
          exact msgErase_not_mem f _ hfkeys
        rw [he]
      simp only [List.zip_cons_cons, List.cons_append]
      unfold pullMany
      rw [hpull]
      dsimp only
      rw [ih vs rest (by simpa using hlen) (List.nodup_cons.mp hnd).2
        (fun g hg => hdisj g (List.mem_cons_of_mem f hg))]

lemma pullOpts_spec (os : List String) : ∀ (m : Msg), os.Nodup →
    (msgKeys m).Nodup →
    pullOpts os m =
      (os.filterMap (fun o => (lookupVal o m).bind
         (fun v => if v = Value.null then none else some (o, v))),
       m.filter (fun p => !(os.contains p.1))) := by
  induction os with
  | nil =>
    intro m _ _
    simp [pullOpts]
  | cons o os ih =>
    intro m hos hm
    have honotos : o ∉ os := (List.nodup_cons.mp hos).1
    have hos' : os.Nodup := (List.nodup_cons.mp hos).2
    have hfm : ∀ m' : Msg, (∀ k, k ≠ o → lookupVal k m' = lookupVal k m) →
        os.filterMap (fun o' => (lookupVal o' m').bind
          (fun v => if v = Value.null then none else some (o', v))) =
        os.filterMap (fun o' => (lookupVal o' m).bind
          (fun v => if v = Value.null then none else some (o', v))) := by
      intro m' hsame
      refine List.filterMap_congr ?_
      intro o' ho'
      rw [hsame o' (fun h => honotos (h ▸ ho'))]
    have hleft : (msgErase o m).filter (fun p => !(os.contains p.1)) =
        m.filter (fun p => !((o :: os).contains p.1)) := by
      unfold msgErase
      rw [List.filter_filter]
      refine List.filter_congr ?_
      intro p hp
      by_cases h : p.1 = o <;> simp [h]
    unfold pullOpts
    dsimp only
    rcases hl : lookupVal o m with _ | v
    · have homem : o ∉ msgKeys m := (lookupVal_none_iff o m).mp hl
      have hpo : msgPullOpt o m = (none, m) := by
        unfold msgPullOpt
        rw [hl]
      rw [hpo]
      dsimp only
      rw [ih m hos' hm]
      have hleft2 : m.filter (fun p => !(os.contains p.1)) =
          m.filter (fun p => !((o :: os).contains p.1)) := by
        refine List.filter_congr ?_
        intro p hp
        have hpo2 : p.1 ≠ o := fun h => homem (h ▸ List.mem_map_of_mem Prod.fst hp)
        simp [hpo2]
      rw [List.filterMap_cons, hl]
      dsimp only [Option.bind]
      rw [hleft2]
    · have hpo : msgPullOpt o m =
          (if v = Value.null then none else some v, msgErase o m) := by
        unfold msgPullOpt
        rw [hl]
      rw [hpo]
      have hmE : (msgKeys (msgErase o m)).Nodup := msgKeys_erase_nodup o m hm
      rw [ih (msgErase o m) hos' hmE]
      rw [hfm (msgErase o m) (fun k hk => lookupVal_msgErase k o m hk)]
      rw [List.filterMap_cons, hl]
      dsimp only [Option.bind]
      by_cases hv : v = Value.null
      · rw [if_pos hv, if_pos hv]
        dsimp only
        rw [hleft]
      · rw [if_neg hv, if_neg hv]
        dsimp only
        rw [hleft]

/-- Claim C3: for a legal incoming message - the dispatch hypothesis names
the event, mandatory and optional field lists and next state the source
selects for the (message kind, state, interaction pattern) combination -
whose body consists of the mandatory fields in schema order followed by
present optional fields (all names distinct), consume_message extracts the
mandatory fields positionally and the optional fields by name, treats a
present-but-null optional value as absent (it is not passed to the
handler), and hands the handler exactly those; and with one extra field
appended that the schema does not declare, it instead raises the
unknown-fields protocol error naming that field. -/
theorem c3_field_extraction (t : Transaction) (mt : Value) (ev : EventType)
    (fields opt_fields : List String) (st' : TransactionState)
    (vals : List Value) (optPresent : Msg) (k : String) (w : Value)
    (hd : consumeDispatch t.ta_type t.state mt = some (ev, fields, opt_fields, st'))
    (hlen : fields.length = vals.length)
    (hsub : ∀ p ∈ optPresent, p.1 ∈ opt_fields)
    (hopt : opt_fields.Nodup)
    (hk : k ∉ opt_fields)
    (hcln : (FIELD_TA_CMD :: FIELD_MSG_TYPE ::
        (fields ++ (msgKeys optPresent ++ [k]))).Nodup) :
    consume_message t (headerMsg t.ta_type.cmd mt (fields.zip vals ++ optPresent)) =
      ({ t with state := st' },
       Except.ok (ev, vals,
         opt_fields.filterMap (fun o => (lookupVal o optPresent).bind
           (fun v => if v = Value.null then none else some (o, v))))) ∧
    consume_message t (headerMsg t.ta_type.cmd mt
        (fields.zip vals ++ (optPresent ++ [(k, w)]))) =
      ({ t with state := st' },
       Except.error (Error.protocolError (ProtoErrKind.unknownFields [k]))) := by
  have h0 := List.nodup_cons.mp hcln
  have h1 := List.nodup_cons.mp h0.2
  have hfieldsnd : fields.Nodup := h1.2.of_append_left
  have hrestnd : (msgKeys optPresent ++ [k]).Nodup := h1.2.of_append_right
  have hkeysnd : (msgKeys optPresent).Nodup := hrestnd.of_append_left
  have hdisj2 : ∀ f ∈ fields, f ∉ msgKeys optPresent ++ [k] := by
    intro f hf hmem
    exact (List.disjoint_of_nodup_append h1.2) hf hmem
  have hdisj1 : ∀ f ∈ fields, f ∉ msgKeys optPresent := by
    intro f hf hmem
    exact hdisj2 f hf (List.mem_append_left _ hmem)
  have hkeys2 : msgKeys (fields.zip vals ++ (optPresent ++ [(k, w)])) =
      fields ++ (msgKeys optPresent ++ [k]) := by
    unfold msgKeys
    rw [List.map_append, List.map_fst_zip _ _ (le_of_eq hlen), List.map_append]
    simp
  have hkeys1 : msgKeys (fields.zip vals ++ optPresent) =
      fields ++ msgKeys optPresent := by
    unfold msgKeys
    rw [List.map_append, List.map_fst_zip _ _ (le_of_eq hlen)]
  have hcmd2 : FIELD_TA_CMD ∉ msgKeys (fields.zip vals ++ (optPresent ++ [(k, w)])) := by
    rw [hkeys2]
    intro hm
    exact h0.1 (List.mem_cons_of_mem _ hm)
  have hcmd1 : FIELD_TA_CMD ∉ msgKeys (fields.zip vals ++ optPresent) := by
    rw [hkeys1]
    intro hm
    refine h0.1 (List.mem_cons_of_mem _ ?_)
    rcases List.mem_append.mp hm with h | h
    · exact List.mem_append_left _ h
    · exact List.mem_append_right _ (List.mem_append_left _ h)
  have hmt2 : FIELD_MSG_TYPE ∉ msgKeys (fields.zip vals ++ (optPresent ++ [(k, w)])) := by
    rw [hkeys2]
    exact h1.1
  have hmt1 : FIELD_MSG_TYPE ∉ msgKeys (fields.zip vals ++ optPresent) := by
    rw [hkeys1]
    intro hm
    refine h1.1 ?_
    rcases List.mem_append.mp hm with h | h
    · exact List.mem_append_left _ h
    · exact List.mem_append_right _ (List.mem_append_left _ h)
  have hfilter0 : optPresent.filter (fun p => !(opt_fields.contains p.1)) = [] := by
    rw [List.filter_eq_nil_iff]
    intro p hp
    have := hsub p hp
    simp [this]
  constructor
  · rw [consume_message_headerMsg, hd]
    dsimp only
    rw [msgErase_not_mem _ _ hcmd1, msgErase_not_mem _ _ hmt1]
    rw [pullMany_zip fields vals optPresent hlen hfieldsnd hdisj1]
    dsimp only
    rw [pullOpts_spec opt_fields optPresent hopt hkeysnd]
    dsimp only
    rw [hfilter0]
    simp
  · rw [consume_message_headerMsg, hd]
    dsimp only
    rw [msgErase_not_mem _ _ hcmd2, msgErase_not_mem _ _ hmt2]
    rw [pullMany_zip fields vals (optPresent ++ [(k, w)]) hlen hfieldsnd
      (by intro f hf; rw [show msgKeys (optPresent ++ [(k, w)]) = msgKeys optPresent ++ [k] from by unfold msgKeys; rw [List.map_append]; rfl]; exact hdisj2 f hf)]
    dsimp only
    have hkeysnd2 : (msgKeys (optPresent ++ [(k, w)])).Nodup := by
      rw [show msgKeys (optPresent ++ [(k, w)]) = msgKeys optPresent ++ [k] from by
        unfold msgKeys; rw [List.map_append]; rfl]
      exact hrestnd
    rw [pullOpts_spec opt_fields (optPresent ++ [(k, w)]) hopt hkeysnd2]
    dsimp only
    rw [List.filter_append, hfilter0]
    have hfk : ([((k : String), w)].filter (fun p => !(opt_fields.contains p.1))) =
        [(k, w)] := by
      simp [hk]
    rw [hfk]
    simp [msgKeys]

/-- An extra field name the schema does not declare, used in tests. -/
def junkField : String := "junk"

/-- Claim C3 witness: the extraction theorem applied to a concrete
COMPLETE for a hello transaction in REQUESTING - the protocol version is
extracted positionally, and appending an undeclared junk field makes
consume_message raise the unknown-fields error naming it. -/
theorem c3_witness :
    consume_message
      { ta_id := 3, ta_type := TA_HELLO, state := TransactionState.REQUESTING,
        cb := CbTag.external }
      (headerMsg TA_HELLO.cmd (Value.str MSG_TYPE_COMPLETE)
        ([FIELD_PROTO_VERSION].zip [Value.int 2] ++ [])) =
      ({ ta_id := 3, ta_type := TA_HELLO, state := TransactionState.TERMINATED,
         cb := CbTag.external },
       Except.ok (EventType.COMPLETE, [Value.int 2],
         List.filterMap (fun o => (lookupVal o []).bind
           (fun v => if v = Value.null then none else some (o, v))) [])) ∧
    consume_message
      { ta_id := 3, ta_type := TA_HELLO, state := TransactionState.REQUESTING,
        cb := CbTag.external }
      (headerMsg TA_HELLO.cmd (Value.str MSG_TYPE_COMPLETE)
        ([FIELD_PROTO_VERSION].zip [Value.int 2] ++ ([] ++ [(junkField, Value.int 5)]))) =
      ({ ta_id := 3, ta_type := TA_HELLO, state := TransactionState.TERMINATED,
         cb := CbTag.external },
       Except.error (Error.protocolError (ProtoErrKind.unknownFields [junkField]))) :=
  c3_field_extraction
    { ta_id := 3, ta_type := TA_HELLO, state := TransactionState.REQUESTING,
      cb := CbTag.external }
    (Value.str MSG_TYPE_COMPLETE) EventType.COMPLETE
    [FIELD_PROTO_VERSION] [] TransactionState.TERMINATED
    [Value.int 2] [] junkField (Value.int 5)
    rfl rfl (by simp) List.nodup_nil (by simp) (by decide)

lemma msgPut_mem_self (k : String) (v : Value) (m : Msg) :
    (k, v) ∈ msgPut k v m := by
  unfold msgPut
  split
  · rename_i h
    obtain ⟨p0, hp0, hpk⟩ := List.any_eq_true.mp h
    refine List.mem_map.mpr ⟨p0, hp0, ?_⟩
    rw [if_pos hpk]
  · exact List.mem_append_right _ (List.mem_singleton.mpr rfl)

lemma msgPut_mem_preserve (k o : String) (v w : Value) (m : Msg)
    (hko : k ≠ o) (hm : (k, v) ∈ m) : (k, v) ∈ msgPut o w m := by
  unfold msgPut
  split
  · refine List.mem_map.mpr ⟨(k, v), hm, ?_⟩
    rw [if_neg (by simp [hko])]
  · exact List.mem_append_left _ hm

lemma lookupVal_any (k : String) (v : Value) (m : Msg)
    (h : lookupVal k m = some v) : m.any (fun p => p.1 == k) = true := by
  unfold lookupVal at h
  rcases hf : m.find? (fun p => p.1 == k) with _ | q
  · rw [hf] at h
    simp at h
  · refine List.any_eq_true.mpr ⟨q, List.mem_of_find?_eq_some hf, ?_⟩
    have hq := List.find?_some hf
    simpa using hq

lemma lookupVal_of_mem_nodup (k : String) (v : Value) (m : Msg)
    (hnd : (msgKeys m).Nodup) (hm : (k, v) ∈ m) : lookupVal k m = some v := by
  induction m with
  | nil => simp at hm
  | cons p ps ih =>
    rcases List.mem_cons.mp hm with h | h
    · subst h
      unfold lookupVal
      rw [List.find?_cons]
      simp
    · have hpk : p.1 ≠ k := by
        intro hpk
        have hk : k ∈ msgKeys ps := List.mem_map_of_mem Prod.fst h
        have := (List.nodup_cons.mp hnd).1
        exact this (hpk ▸ hk)
      unfold lookupVal
      rw [List.find?_cons]
      have : (p.1 == k) = false := by simp [hpk]
      rw [this]
      exact ih (List.nodup_cons.mp hnd).2 h

lemma applyOptArgs_drained (os : List String) : ∀ (msg : Msg)
    (optargs : List (String × Value)),
    (∀ p ∈ optargs, p.1 ∈ os) → (applyOptArgs os msg optargs).2 = [] := by
  induction os with
  | nil =>
    intro msg optargs hsub
    have : optargs = [] := by
      rcases optargs with _ | ⟨p, ps⟩
      · rfl
      · exact absurd (hsub p (List.mem_cons_self p ps)) (by simp)
    simp [applyOptArgs, this]
  | cons o os ih =>
    intro msg optargs hsub
    unfold applyOptArgs
    split
    · refine ih _ (msgErase o optargs) ?_
      intro p hp
      have hpm := List.mem_filter.mp hp
      have hin := hsub p hpm.1
      have hne : p.1 ≠ o := by simpa using hpm.2
      rcases List.mem_cons.mp hin with h | h
      · exact absurd h hne
      · exact h
    · rename_i h
      refine ih _ optargs ?_
      intro p hp
      rcases List.mem_cons.mp (hsub p hp) with heq | hin
      · exfalso
        exact h (List.any_eq_true.mpr ⟨p, hp, by simp [heq]⟩)
      · exact hin

lemma applyOptArgs_mem_msg (os : List String) : ∀ (msg : Msg)
    (optargs : List (String × Value)) (k : String) (v : Value),
    (k, v) ∈ msg → k ∉ os → (k, v) ∈ (applyOptArgs os msg optargs).1 := by
  induction os with
  | nil =>
    intro msg optargs k v hm _
    exact hm
  | cons o os ih =>
    intro msg optargs k v hm hk
    have hko : k ≠ o := fun h => hk (h ▸ List.mem_cons_self o os)
    have hkos : k ∉ os := fun h => hk (List.mem_cons_of_mem o h)
    unfold applyOptArgs
    split
    · rcases hl : lookupVal o optargs with _ | w
      · dsimp only
        exact ih _ _ k v hm hkos
      · dsimp only
        by_cases hw : w = Value.null
        · rw [if_pos hw]
          exact ih _ _ k v hm hkos
        · rw [if_neg hw]
          exact ih _ _ k v (msgPut_mem_preserve k o v w msg hko hm) hkos
    · exact ih _ _ k v hm hkos

lemma applyOptArgs_serializes (os : List String) : ∀ (msg : Msg)
    (optargs : List (String × Value)) (k : String) (v : Value),
    os.Nodup → lookupVal k optargs = some v → v ≠ Value.null → k ∈ os →
    (k, v) ∈ (applyOptArgs os msg optargs).1 := by
  induction os with
  | nil =>
    intro msg optargs k v _ _ _ hk
    simp at hk
  | cons o os ih =>
    intro msg optargs k v hnd hl hv hk
    unfold applyOptArgs
    by_cases hko : k = o
    · subst hko
      rw [if_pos (lookupVal_any k v optargs hl)]
      rw [hl]
      dsimp only
      rw [if_neg hv]
      exact applyOptArgs_mem_msg os _ _ k v (msgPut_mem_self k v msg)
        (List.nodup_cons.mp hnd).1
    · have hkos : k ∈ os := by
        rcases List.mem_cons.mp hk with h | h
        · exact absurd h hko
        · exact h
      have hl' : lookupVal k (msgErase o optargs) = some v := by
        rw [lookupVal_msgErase k o optargs hko]
        exact hl
      split
      · rcases hlo : lookupVal o optargs with _ | w
        · dsimp only
          exact ih _ _ k v (List.nodup_cons.mp hnd).2 hl' hv hkos
        · dsimp only
          by_cases hw : w = Value.null
          · rw [if_pos hw]
            exact ih _ _ k v (List.nodup_cons.mp hnd).2 hl' hv hkos
          · rw [if_neg hw]
            exact ih _ _ k v (List.nodup_cons.mp hnd).2 hl' hv hkos
      · exact ih _ _ k v (List.nodup_cons.mp hnd).2 hl hv hkos

lemma applyOptArgs_leftover (os : List String) : ∀ (msg : Msg)
    (optargs : List (String × Value)) (p : String × Value),
    p ∈ optargs → p.1 ∉ os → p ∈ (applyOptArgs os msg optargs).2 := by
  induction os with
  | nil =>
    intro msg optargs p hp _
    exact hp
  | cons o os ih =>
    intro msg optargs p hp hpo
    have hne : p.1 ≠ o := fun h => hpo (h ▸ List.mem_cons_self o os)
    have hnos : p.1 ∉ os := fun h => hpo (List.mem_cons_of_mem o h)
    unfold applyOptArgs
    split
    · refine ih _ _ p ?_ hnos
      exact List.mem_filter.mpr ⟨hp, by simp [hne]⟩
    · exact ih _ _ p hp hnos

/-- Claim C9: produce_request with the correct number of positional
arguments: if every named optional argument is recognized by the schema's
optional request fields, the call succeeds (the leftover-arguments
assertion holds), the transaction moves to REQUESTING, and every
recognized optional argument with a non-null value is serialized into the
request message under its field; if any named optional argument is
unrecognized, the leftover assertion fails (a caller contract
violation). -/
theorem c9_produce_request_optargs (t : Transaction) (args : List Value)
    (optargs : List (String × Value))
    (hlen : args.length = t.ta_type.request_fields.length)
    (hnd : (optargs.map Prod.fst).Nodup)
    (hosnd : t.ta_type.opt_request_fields.Nodup) :
    ((∀ p ∈ optargs, p.1 ∈ t.ta_type.opt_request_fields) →
       ∃ m, produce_request t args optargs =
           .ok ({ t with state := TransactionState.REQUESTING }, m) ∧
         ∀ k v, (k, v) ∈ optargs → v ≠ Value.null → (k, v) ∈ m) ∧
    ((∃ p ∈ optargs, p.1 ∉ t.ta_type.opt_request_fields) →
       produce_request t args optargs = .error Error.assertionError) := by
  constructor
  · intro hsub
    unfold produce_request
    rw [if_neg (by omega)]
    have hdr : ∀ msg : Msg,
        (applyOptArgs t.ta_type.opt_request_fields msg optargs).2 = [] :=
      fun msg => applyOptArgs_drained _ msg optargs hsub
    dsimp only
    rw [if_neg (by simp [hdr])]
    refine ⟨_, rfl, ?_⟩
    intro k v hkv hv
    exact applyOptArgs_serializes t.ta_type.opt_request_fields _ optargs k v
      hosnd (lookupVal_of_mem_nodup k v optargs hnd hkv) hv (hsub (k, v) hkv)
  · rintro ⟨p, hp, hpo⟩
    unfold produce_request
    rw [if_neg (by omega)]
    have hcond : ∀ msg : Msg,
        (applyOptArgs t.ta_type.opt_request_fields msg optargs).2.length ≠ 0 := by
      intro msg hzero
      have hlo := applyOptArgs_leftover t.ta_type.opt_request_fields msg optargs p hp hpo
      rw [List.length_eq_zero] at hzero
      rw [hzero] at hlo
      simp at hlo
    dsimp only
    rw [if_pos (hcond _)]

/-- The name of the optional filter field of the subscribe command. -/
def filterField : String := "filter"

/-- Claim C9 witness: the theorem applied to a concrete subscribe request
whose optional-argument mapping carries a recognized filter value. -/
theorem c9_witness :
    ∃ m, produce_request
        { ta_id := 5, ta_type := TA_SUBSCRIBE, state := TransactionState.IDLE,
          cb := CbTag.external }
        [Value.int 9] [(filterField, Value.int 1)] =
      .ok ({ ta_id := 5, ta_type := TA_SUBSCRIBE,
             state := TransactionState.REQUESTING, cb := CbTag.external }, m) ∧
      ∀ k v, (k, v) ∈ [(filterField, Value.int 1)] → v ≠ Value.null → (k, v) ∈ m :=
  (c9_produce_request_optargs
    { ta_id := 5, ta_type := TA_SUBSCRIBE, state := TransactionState.IDLE,
      cb := CbTag.external }
    [Value.int 9] [(filterField, Value.int 1)] rfl (by simp) (by decide)).1
    (by decide)

lemma findTransaction_delete (i : Int) (ts : List (Int × Transaction)) :
    findTransaction (Value.int i) (deleteTransaction i ts) = none := by
  unfold findTransaction deleteTransaction
  rw [List.find?_eq_none]
  intro p hp
  have h := (List.mem_filter.mp hp).2
  simp only [bne_iff_ne, ne_eq] at h
  simp [h]

/-- Claim C2 (amended): an inbound message whose transaction id has no
registry entry makes try_receive raise the unknown-transaction protocol
error; and a transaction that reaches TERMINATED while its message is
processed is removed from the registry provided its handler returns
normally (external handlers are modelled as non-raising; the internal
handshake handler can raise instead, see the counterexample). -/
theorem c2_termination_registry :
    (∀ (c : Client) (m : Msg) (rest : List RecvOutcome) (v : Value) (m' : Msg),
       c.sock.recvQueue = RecvOutcome.wire (WireMsg.data m) :: rest →
       msgPull FIELD_TA_ID m = .ok (v, m') →
       findTransaction v c.transactions = none →
       (try_receive c).2 = .error (.protocolError (.unknownTransaction v))) ∧
    (∀ (c : Client) (m : Msg) (rest : List RecvOutcome) (i : Int) (m' : Msg)
       (t t' : Transaction) (ev : EventType) (args : List Value)
       (oa : List (String × Value)),
       c.sock.recvQueue = RecvOutcome.wire (WireMsg.data m) :: rest →
       msgPull FIELD_TA_ID m = .ok (Value.int i, m') →
       findTransaction (Value.int i) c.transactions = some (i, t) →
       consume_message t m' = (t', .ok (ev, args, oa)) →
       t'.cb = CbTag.external →
       t'.state = TransactionState.TERMINATED →
       (try_receive c).2 = .ok true ∧
       findTransaction (Value.int i) (try_receive c).1.transactions = none) := by
  constructor
  · intro c m rest v m' hq hpull hfind
    unfold try_receive
    rw [hq]
    dsimp only
    rw [hpull]
    dsimp only
    rw [hfind]
  · intro c m rest i m' t t' ev args oa hq hpull hfind hcons hcb hterm
    unfold try_receive
    rw [hq]
    try dsimp only
    rw [hpull]
    try dsimp only
    rw [hfind]
    try dsimp only
    rw [hcons]
    try dsimp only
    rw [hcb]
    unfold runCb
    try dsimp only
    rw [if_pos hterm]
    try dsimp only
    refine ⟨rfl, ?_⟩
    exact findTransaction_delete i _

/-- The hello COMPLETE reply carrying protocol version 3 (the client
requires 2), used in concrete handshake tests. -/
def helloBadReply : Msg :=
  [(FIELD_TA_CMD, Value.str TA_HELLO.cmd), (FIELD_TA_ID, Value.int 0),
   (FIELD_MSG_TYPE, Value.str MSG_TYPE_COMPLETE), (FIELD_PROTO_VERSION, Value.int 3)]

/-- A client that has sent its hello (transaction 0, handler
initial_hello_cb) and whose transport has the mismatching COMPLETE
queued. -/
def cBadHello : Client :=
  { client_id := 11,
    sock := { recvQueue := [RecvOutcome.wire (WireMsg.data helloBadReply)],
              sendOutcomes := [], sent := [], cond := { receivable := true, sendable := false },
              closed := false },
    ta_id := 1, out_wire_msgs := [],
    transactions := [(0, { ta_id := 0, ta_type := TA_HELLO,
                           state := TransactionState.REQUESTING,
                           cb := CbTag.initialHello })],
    proto_version := none, has_ready_cb := false, ready_fired := false,
    delivered := [] }

/-- Claim C2 counterexample: processing the version-mismatch COMPLETE
drives the hello transaction to TERMINATED, but its handler
(initial_hello_cb) raises before try_receive reaches the registry
deletion, so the TERMINATED transaction stays in the registry while the
protocol error propagates - the connection does not remove the id the
moment the transaction terminates, contradicting the claim. -/
theorem c2_counterexample :
    (try_receive cBadHello).1.transactions =
      [(0, { ta_id := 0, ta_type := TA_HELLO,
             state := TransactionState.TERMINATED, cb := CbTag.initialHello })] ∧
    (try_receive cBadHello).2 =
      .error (.protocolError (.versionMismatch (Value.int 3))) :=
  ⟨rfl, rfl⟩

/-- The FAIL reply used by the C2 witness (subscribe transaction 5). -/
def failReply : Msg :=
  [(FIELD_TA_ID, Value.int 5), (FIELD_TA_CMD, Value.str TA_SUBSCRIBE.cmd),
   (FIELD_MSG_TYPE, Value.str MSG_TYPE_FAIL)]

/-- A client with one externally-handled subscribe transaction in ACCEPTED
and its FAIL queued. -/
def cSubFail : Client :=
  { client_id := 12,
    sock := { recvQueue := [RecvOutcome.wire (WireMsg.data failReply)],
              sendOutcomes := [], sent := [], cond := { receivable := true, sendable := false },
              closed := false },
    ta_id := 6, out_wire_msgs := [],
    transactions := [(5, { ta_id := 5, ta_type := TA_SUBSCRIBE,
                           state := TransactionState.ACCEPTED,
                           cb := CbTag.external })],
    proto_version := some (Value.int 2), has_ready_cb := false,
    ready_fired := false, delivered := [] }

/-- Claim C2 witness: the amended theorem applied to the concrete FAIL -
the receive step succeeds and the terminated transaction is gone from the
registry. -/
theorem c2_witness :
    (try_receive cSubFail).2 = .ok true ∧
    findTransaction (Value.int 5) (try_receive cSubFail).1.transactions = none :=
  c2_termination_registry.2 cSubFail _ _ 5 _ _
    { ta_id := 5, ta_type := TA_SUBSCRIBE, state := TransactionState.TERMINATED,
      cb := CbTag.external }
    EventType.FAIL [] [] rfl rfl rfl rfl rfl rfl

lemma sendLoop_unfold (c : Client) : sendLoop MAX_MSGS_PER_ROUND c =
    match try_send c with
    | (c, .ok true) => sendLoop 127 c
    | (c, .ok false) => (c, .ok ())
    | (c, .error e) => (c, .error e) := rfl

lemma recvLoop_unfold (c : Client) : recvLoop MAX_MSGS_PER_ROUND c =
    match try_receive c with
    | (c, .ok true) => recvLoop 127 c
    | (c, .ok false) => (c, .ok ())
    | (c, .error e) => (c, .error e) := rfl

lemma wait_one (c : Client) (criteria : Client → Bool) :
    wait 1 c criteria =
      (if criteria c then (c, .ok true)
       else
         let pc := process c
         match pc.2 with
         | .error e => (pc.1, .error e)
         | .ok _ => wait 0 pc.1 criteria) := rfl

/-- A transport script whose only inbound item is a hello COMPLETE
selecting protocol version v, with an unwritable (would-block) send
direction. -/
def helloMismatchSock (v : Int) : Sock :=
  { recvQueue := [RecvOutcome.wire (WireMsg.data
      [(FIELD_TA_CMD, Value.str TA_HELLO.cmd), (FIELD_TA_ID, Value.int 0),
       (FIELD_MSG_TYPE, Value.str MSG_TYPE_COMPLETE),
       (FIELD_PROTO_VERSION, Value.int v)])],
    sendOutcomes := [], sent := [],
    cond := { receivable := false, sendable := false }, closed := false }

/-- A transport script whose only inbound item is a hello FAIL carrying a
failure reason. -/
def helloFailSock : Sock :=
  { recvQueue := [RecvOutcome.wire (WireMsg.data
      [(FIELD_TA_CMD, Value.str TA_HELLO.cmd), (FIELD_TA_ID, Value.int 0),
       (FIELD_MSG_TYPE, Value.str MSG_TYPE_FAIL),
       (FIELD_FAIL_REASON, Value.str reasonBusy)])],
    sendOutcomes := [], sent := [],
    cond := { receivable := false, sendable := false }, closed := false }

/-- Claim C8: when the handshake COMPLETE carries a server-selected
version different from the required one, connect (Client.init) raises the
version-mismatch protocol error and the transport handle is closed in the
returned state, before the error propagates; and when the handshake ends
in FAIL, it raises the establishment-failed protocol error, the transport
handle likewise closed. -/
theorem c8_handshake_teardown (v : Int) (hv : v ≠ VERSION) :
    (Client.init 11 (helloMismatchSock v) false 1).2 =
      .error (.protocolError (.versionMismatch (Value.int v))) ∧
    (Client.init 11 (helloMismatchSock v) false 1).1.sock.closed = true ∧
    (Client.init 11 helloFailSock false 1).2 =
      .error (.protocolError (.establishmentFailed (Value.str reasonBusy))) ∧
    (Client.init 11 helloFailSock false 1).1.sock.closed = true := by
  have hv2 : ¬((2 : Int) = v) := by
    intro h
    exact hv (by rw [VERSION]; exact h.symm)
  refine ⟨?_, ?_, rfl, rfl⟩
  all_goals
    simp [Client.init, initial_hello, hello_initial, async_request,
      next_ta_id, produce_request, applyOptArgs, msgPut, lookupVal, msgErase,
      msgKeys, msgPull, TA_HELLO, VERSION, FIELD_TA_CMD, FIELD_TA_ID,
      FIELD_MSG_TYPE, FIELD_PROTO_VERSION, FIELD_FAIL_REASON, MSG_TYPE_REQUEST,
      MSG_TYPE_ACCEPT, MSG_TYPE_NOTIFY, MSG_TYPE_COMPLETE, MSG_TYPE_FAIL,
      helloMismatchSock, try_send, update, process, sendLoop_unfold,
      recvLoop_unfold, wait_one, try_receive, findTransaction,
      replaceTransaction, deleteTransaction, consume_message, consumeDispatch,
      pullMany, pullOpts, msgPullOpt, runCb, initial_hello_cb, Client.close,
      Error.isPafError, hv2, List.find?, List.filter, List.any,
      List.zip, List.zipWith, List.foldl,
      Option.isSome, TransactionState.pyName]

/-- Claim C8 witness: the theorem applied at server-selected version 3
(the required version being 2). -/
theorem c8_witness :
    (Client.init 11 (helloMismatchSock 3) false 1).2 =
      .error (.protocolError (.versionMismatch (Value.int 3))) ∧
    (Client.init 11 (helloMismatchSock 3) false 1).1.sock.closed = true ∧
    (Client.init 11 helloFailSock false 1).2 =
      .error (.protocolError (.establishmentFailed (Value.str reasonBusy))) ∧
    (Client.init 11 helloFailSock false 1).1.sock.closed = true :=
  c8_handshake_teardown 3 (by decide)
